import Mathlib

/-!
Verification development for the Web3 research agent (src/ai-agent/main.py).
The definitions below are a shallow embedding of the data model and the
operations of the orchestration and data-fusion layer: greeting detection,
session management, research planning, parallel tool dispatch, data merging,
completeness scoring, canonical data selection and the research orchestrator.
Python dictionaries are modelled as insertion-ordered association lists,
numbers as rationals, and JSON-like payloads as an inductive value type.
-/

set_option linter.unusedVariables false

namespace Airaa

/-- Character code 39, the ASCII apostrophe, used inside greeting phrases. -/
def aposChar : Char := Char.ofNat 39

/-- Right single quotation mark (U+2019), the second character admitted by the
character class of the whats-up greeting pattern. -/
def rightQuoteChar : Char := Char.ofNat 8217

/-- String consisting of the single ASCII apostrophe. -/
def aposStr : String := String.singleton aposChar

/-- Model of Python str.startswith on character lists. -/
def beginsWith : List Char → List Char → Bool
  | [], _ => true
  | _ :: _, [] => false
  | p :: ps, c :: cs => p == c && beginsWith ps cs

/-- Model of Python substring membership (the in operator) on character lists. -/
def occursIn (needle : List Char) : List Char → Bool
  | [] => beginsWith needle []
  | c :: cs => beginsWith needle (c :: cs) || occursIn needle cs

/-- Model of Python substring membership for strings. -/
def occursStr (needle hay : String) : Bool := occursIn needle.data hay.data

/-- Word characters for the regex word boundary, in the ASCII range relevant
to the greeting patterns. -/
def isWordChar (c : Char) : Bool := c.isAlphanum || c == '_'

/-- Drop a leading (possibly empty) run of whitespace characters. -/
def dropWsRun : List Char → List Char
  | [] => []
  | c :: cs => if c.isWhitespace then dropWsRun cs else c :: cs

/-- Consume one or more whitespace characters (the regex piece for repeated
whitespace) and return the remaining characters, or fail. -/
def chompWs : List Char → Option (List Char)
  | [] => none
  | c :: cs => if c.isWhitespace then some (dropWsRun cs) else none

/-- Check that the character list starts with the given word followed by a
word boundary (end of input or a non-word character). -/
def wordAt (w : String) (l : List Char) : Bool :=
  beginsWith w.data l &&
    (match l.drop w.data.length with
     | [] => true
     | c :: _ => !(isWordChar c))

/-- Model of re.match for the anchored pattern matching a leading hi, hello or
hey as a whole word, with arbitrary following text. -/
def matchLeadingHi (l : List Char) : Bool :=
  wordAt "hi" l || wordAt "hello" l || wordAt "hey" l

/-- Model of re.match for the pattern good, whitespace, then one of morning,
afternoon, evening or day. -/
def matchGoodGreeting (l : List Char) : Bool :=
  beginsWith "good".data l &&
    (match chompWs (l.drop 4) with
     | some r =>
        beginsWith "morning".data r || beginsWith "afternoon".data r ||
          beginsWith "evening".data r || beginsWith "day".data r
     | none => false)

/-- Helper matching whitespace followed by the word you. -/
def contWsYou (l : List Char) : Bool :=
  match chompWs l with
  | some r => beginsWith "you".data r
  | none => false

/-- Model of re.match for the pattern how, whitespace, are or is, whitespace,
you. -/
def matchHowAreYou (l : List Char) : Bool :=
  beginsWith "how".data l &&
    (match chompWs (l.drop 3) with
     | some r =>
        (beginsWith "are".data r && contWsYou (r.drop 3)) ||
          (beginsWith "is".data r && contWsYou (r.drop 2))
     | none => false)

/-- Helper for the whats-up pattern after the optional apostrophe: s,
whitespace, up. -/
def matchSUpTail (l : List Char) : Bool :=
  beginsWith "s".data l &&
    (match chompWs (l.drop 1) with
     | some r => beginsWith "up".data r
     | none => false)

/-- Model of re.match for the pattern what, optional apostrophe (straight or
typographic), s, whitespace, up. -/
def matchWhatsUp (l : List Char) : Bool :=
  beginsWith "what".data l &&
    (match l.drop 4 with
     | c :: cs =>
        if c == aposChar || c == rightQuoteChar then matchSUpTail cs
        else matchSUpTail (c :: cs)
     | [] => false)

/-- Model of re.match for the pattern nice, whitespace, to, whitespace, meet,
whitespace, you. -/
def matchNiceToMeet (l : List Char) : Bool :=
  beginsWith "nice".data l &&
    (match chompWs (l.drop 4) with
     | some r1 =>
        beginsWith "to".data r1 &&
          (match chompWs (r1.drop 2) with
           | some r2 =>
              beginsWith "meet".data r2 &&
                (match chompWs (r2.drop 4) with
                 | some r3 => beginsWith "you".data r3
                 | none => false)
           | none => false)
     | none => false)

/-- Model of re.match for the pattern thank with optional s, then mandatory
whitespace, then an optional you (the optional trailing group always
succeeds, so only the whitespace is required). -/
def matchThanks (l : List Char) : Bool :=
  (beginsWith "thanks".data l && (chompWs (l.drop 6)).isSome) ||
    (beginsWith "thank".data l && (chompWs (l.drop 5)).isSome)

/-- Model of re.match for the pattern thank, whitespace, you. -/
def matchThankYou (l : List Char) : Bool :=
  beginsWith "thank".data l &&
    (match chompWs (l.drop 5) with
     | some r => beginsWith "you".data r
     | none => false)

/-- ASCII lowercase mapping for a single character, matching Python str.lower
on the ASCII inputs used throughout the agent. -/
def lowerChar (c : Char) : Char :=
  if 65 ≤ c.toNat && c.toNat ≤ 90 then Char.ofNat (c.toNat + 32) else c

/-- Model of Python str.strip on character lists: remove leading and trailing
whitespace. -/
def trimChars (l : List Char) : List Char :=
  ((dropWsRun l).reverse |> dropWsRun).reverse

/-- Lowercase and strip a query string, returning its characters; this models
the Python expression query.lower().strip(). -/
def pyLowerStrip (s : String) : List Char :=
  trimChars (s.data.map lowerChar)

/-- Curated list of greeting phrases from detect_greeting. -/
def greetingPhrases : List String :=
  ["hi", "hello", "hey", "hiya", "howdy", "greetings",
   "good morning", "good afternoon", "good evening", "good day",
   "what" ++ aposStr ++ "s up", "whats up", "how are you",
   "how" ++ aposStr ++ "re you", "how are you doing",
   "how" ++ aposStr ++ "s it going", "hows it going",
   "how" ++ aposStr ++ "s everything", "hows everything",
   "nice to meet you", "pleasure to meet you", "thanks", "thank you",
   "bye", "goodbye", "see you", "catch you later", "take care",
   "how do you do", "sup", "yo", "cheers"]

/-- First phase of detect_greeting: exact match, or the phrase followed by a
space or a comma. -/
def greetingPhraseHit (q : List Char) : Bool :=
  greetingPhrases.any fun g =>
    q == g.data || beginsWith (g.data ++ [' ']) q || beginsWith (g.data ++ [',']) q

/-- Model of detect_greeting: lowercase and strip the query, check the curated
phrase list, then the anchored greeting patterns. -/
def detect_greeting (query : String) : Bool :=
  let l := pyLowerStrip query
  greetingPhraseHit l ||
    matchLeadingHi l || matchGoodGreeting l || matchHowAreYou l ||
    matchWhatsUp l || matchNiceToMeet l || matchThanks l || matchThankYou l

example : detect_greeting "Hello" = true := by decide
example : detect_greeting "hey analyze bitcoin performance" = true := by decide
example : detect_greeting "what is bitcoin" = false := by decide
example : detect_greeting "analyze ethereum" = false := by decide
example : detect_greeting "thanksgiving recipes" = false := by decide
example : detect_greeting "hiya" = true := by decide

/-! JSON-like payload values and Python-dict operations. -/

/-- JSON-like values exchanged with the data providers. Numbers are modelled
as rationals; the claims settled here do not depend on floating-point
rounding. -/
inductive JData where
  | null
  | boolean (b : Bool)
  | num (q : ℚ)
  | str (s : String)
  | arr (xs : List JData)
  | obj (fields : List (String × JData))

/-- Insertion-ordered association list modelling a Python dict with string
keys, as used for the primary and supplementary partitions. -/
abbrev Dict := List (String × JData)

/-- Lookup in an insertion-ordered dict. -/
def dlookup (k : String) : Dict → Option JData
  | [] => none
  | (k1, v1) :: t => if k1 = k then some v1 else dlookup k t

/-- Python dict assignment: replace the value in place when the key exists,
otherwise append the new binding at the end (insertion order). -/
def dinsert (k : String) (v : JData) : Dict → Dict
  | [] => [(k, v)]
  | (k1, v1) :: t => if k1 = k then (k, v) :: t else (k1, v1) :: dinsert k v t

/-- Keys of a dict in insertion order. -/
def dkeys (d : Dict) : List String := d.map Prod.fst

/-- Values of a dict in insertion order (Python dict values view). -/
def dvalues (d : Dict) : List JData := d.map Prod.snd

/-- Python membership test on a dict object. -/
def jhasKey (v : JData) (k : String) : Bool :=
  match v with
  | .obj fs => (dlookup k fs).isSome
  | _ => false

/-- Python v.get(k) with default None on a dict value; a non-dict receiver
raises in the source and is modelled as None. -/
def jget (v : JData) (k : String) : JData :=
  match v with
  | .obj fs => (dlookup k fs).getD .null
  | _ => .null

/-- Chained Python .get calls with empty-dict intermediate defaults and a
None final default. -/
def jpath (v : JData) : List String → JData
  | [] => v
  | k :: ks => jpath (jget v k) ks

/-- Python truthiness of a JSON-like value. -/
def jtruthy : JData → Bool
  | .null => false
  | .boolean b => b
  | .num q => q != 0
  | .str s => s ≠ ""
  | .arr xs => !xs.isEmpty
  | .obj fs => !fs.isEmpty

/-- Test whether the value is a dict (Python isinstance against dict). -/
def jisObj : JData → Bool
  | .obj _ => true
  | _ => false

/-- Rendering of a value in string position (Python str applied in an
f-string or when a value is used as a dict key). The payloads reaching key
positions in the modelled flows are strings; the remaining cases are coarse
renderings of the Python forms. -/
def jAsKeyStr : JData → String
  | .str s => s
  | .null => "None"
  | .boolean true => "True"
  | .boolean false => "False"
  | .num q => toString q
  | .arr _ => "[]"
  | .obj _ => "()"

/-- Numeric reading of a value with default 0 for an absent entry; the source
raises a TypeError when a present value is not numeric, and such inputs are
outside the modelled flows (Python booleans count as integers). -/
def jnumVal : JData → ℚ
  | .num q => q
  | .boolean b => if b then 1 else 0
  | _ => 0

mutual
/-- Substring membership in the Python str rendering of a value; every string
atom and dict key of the value is examined. The needles used by the scoring
function contain no quote or separator characters, so occurrence in the
Python repr coincides with occurrence in one of the atoms. -/
def jcontains (needle : String) : JData → Bool
  | .str s => occursStr needle s
  | .arr xs => jcontainsList needle xs
  | .obj fs => jcontainsFields needle fs
  | _ => false

/-- Substring membership across a list of values. -/
def jcontainsList (needle : String) : List JData → Bool
  | [] => false
  | x :: xs => jcontains needle x || jcontainsList needle xs

/-- Substring membership across dict fields, keys included. -/
def jcontainsFields (needle : String) : List (String × JData) → Bool
  | [] => false
  | (k, v) :: fs => occursStr needle k || jcontains needle v || jcontainsFields needle fs
end

/-! Numeric parsing used by the CoinMarketCap description extraction. -/

/-- Value of a digit run. -/
def digitsToNat (l : List Char) : Nat :=
  l.foldl (fun n c => n * 10 + (c.toNat - 48)) 0

/-- Fractional value of a digit run placed after a decimal point. -/
def fracOfDigits (l : List Char) : ℚ :=
  (digitsToNat l : ℚ) / (10 : ℚ) ^ l.length

/-- Split a maximal run of digits and commas from the front. -/
def takeDigitsCommas : List Char → List Char × List Char
  | [] => ([], [])
  | c :: cs =>
    if c.isDigit || c == ',' then
      let (r, rest) := takeDigitsCommas cs
      (c :: r, rest)
    else ([], c :: cs)

/-- Split a maximal run of digits from the front. -/
def takeDigits : List Char → List Char × List Char
  | [] => ([], [])
  | c :: cs =>
    if c.isDigit then
      let (r, rest) := takeDigits cs
      (c :: r, rest)
    else ([], c :: cs)

/-- Split a maximal run of digits and dots from the front. -/
def takeDigitsDots : List Char → List Char × List Char
  | [] => ([], [])
  | c :: cs =>
    if c.isDigit || c == '.' then
      let (r, rest) := takeDigitsDots cs
      (c :: r, rest)
    else ([], c :: cs)

/-- Parse a comma-grouped decimal number (digits or commas, a dot, digits),
returning its value and the remaining characters; commas are removed before
conversion as in the source. -/
def parseCommaNumRest (l : List Char) : Option (ℚ × List Char) :=
  let (r1, l1) := takeDigitsCommas l
  if r1.isEmpty then none
  else
    match l1 with
    | '.' :: l2 =>
      let (r2, l3) := takeDigits l2
      if r2.isEmpty then none
      else some ((digitsToNat (r1.filter Char.isDigit) : ℚ) + fracOfDigits r2, l3)
    | _ => none

/-- Parse a run of digits and dots as Python float would: at most one dot and
at least one digit overall; a malformed run raises in the source and is
modelled as no value. -/
def parseFloatRun (r : List Char) : Option ℚ :=
  if r.isEmpty then none
  else
    match (r.filter (· == '.')).length with
    | 0 => some (digitsToNat r : ℚ)
    | 1 =>
      let a := r.takeWhile (· ≠ '.')
      let b := r.drop (a.length + 1)
      if a.isEmpty && b.isEmpty then none
      else some ((digitsToNat a : ℚ) + fracOfDigits b)
    | _ => none

/-- Attempt to read the piece matching is-number-USD at the given position of
the description. -/
def tryIsNumUSD (seg : List Char) : Option ℚ :=
  if beginsWith " is ".data seg then
    match parseCommaNumRest (seg.drop 4) with
    | some (q, rest) => if beginsWith " USD".data rest then some q else none
    | none => none
  else none

/-- Rightmost successful is-number-USD match in the newline-free region,
modelling the greedy dot-plus piece of the price pattern. -/
def lastIsNumUSD : List Char → Option ℚ
  | [] => none
  | c :: cs =>
    if c == '\n' then none
    else (lastIsNumUSD cs).orElse fun _ => tryIsNumUSD (c :: cs)

/-- Model of re.search for the last-known-price pattern: at each occurrence
of the literal, the greedy middle piece selects the rightmost following
is-number-USD region on the same line; the first occurrence admitting a
completion wins. -/
def searchPriceFrom (l : List Char) : Option ℚ :=
  match l with
  | [] => none
  | c :: cs =>
    if beginsWith "last known price of ".data (c :: cs) then
      let rest := (c :: cs).drop "last known price of ".data.length
      let hit :=
        match rest with
        | [] => none
        | c0 :: rest1 => if c0 == '\n' then none else lastIsNumUSD rest1
      match hit with
      | some q => some q
      | none => searchPriceFrom cs
    else searchPriceFrom cs

/-- Model of re.search for a literal followed by a captured run of digits and
dots, converted by Python float; occurrences whose following character is not
a digit or dot are skipped, as re.search resumes at later positions. -/
def searchFloatAfter (lit : List Char) : List Char → Option ℚ
  | [] => none
  | c :: cs =>
    if beginsWith lit (c :: cs) then
      let (run, _) := takeDigitsDots ((c :: cs).drop lit.length)
      if run.isEmpty then searchFloatAfter lit cs else parseFloatRun run
    else searchFloatAfter lit cs

/-- Model of re.search for a literal followed by a comma-grouped decimal
number. -/
def searchCommaNumAfter (lit : List Char) : List Char → Option ℚ
  | [] => none
  | c :: cs =>
    if beginsWith lit (c :: cs) then
      match parseCommaNumRest ((c :: cs).drop lit.length) with
      | some (q, _) => some q
      | none => searchCommaNumAfter lit cs
    else searchCommaNumAfter lit cs

/-! Tool results and the data-fusion merge. -/

/-- Result dictionary returned by a tool adapter invocation. The source entry
defaults to unknown when absent, matching the .get call in the merge; the
success entry is read for truthiness and is modelled as a boolean. -/
structure ToolResult where
  source : Option String
  success : Bool
  data : JData
  error : Option String
  metadata : JData

/-- Source tag of a result with the unknown default. -/
def srcOf (r : ToolResult) : String := r.source.getD "unknown"

/-- One record write produced while merging a tool result: target partition
(primary or supplementary), key, and record value. -/
structure MWrite where
  primary : Bool
  key : String
  val : JData

/-- Extraction of the market fields embedded in a CoinMarketCap description
string: price, 24h percent change (up or down), and circulating supply. -/
def descExtract (desc : String) : JData × JData × JData :=
  let price := match searchPriceFrom desc.data with
    | some q => JData.num q
    | none => JData.null
  let change := match searchFloatAfter "and is up ".data desc.data with
    | some q => JData.num q
    | none =>
      match searchFloatAfter "and is down ".data desc.data with
      | some q => JData.num (-q)
      | none => JData.null
  let supply := match searchCommaNumAfter "current supply of ".data desc.data with
    | some q => JData.num q
    | none => JData.null
  (price, change, supply)

/-- Record built for one entry of the cryptocurrency-info payload. -/
def cmcInfoRecord (cmcId : String) (ci : JData) (source : String) : MWrite :=
  let desc := match jget ci "description" with
    | .str s => s
    | _ => ""
  let (price0, change0, supply0) := descExtract desc
  let hasQuote := jhasKey ci "quote" && jhasKey (jget ci "quote") "USD"
  let qd := jget (jget ci "quote") "USD"
  let price := if !jtruthy price0 && hasQuote && jhasKey qd "price" then jget qd "price" else price0
  let change := if !jtruthy change0 && hasQuote && jhasKey qd "percent_change_24h" then jget qd "percent_change_24h" else change0
  let marketCap := if hasQuote then jget qd "market_cap" else JData.null
  let volume := if hasQuote then jget qd "volume_24h" else JData.null
  let rank := if jhasKey ci "cmc_rank" then jget ci "cmc_rank" else JData.null
  let totalSupply := if jhasKey ci "total_supply" then jget ci "total_supply" else JData.null
  let maxSupply := if jhasKey ci "max_supply" then jget ci "max_supply" else JData.null
  let symbol := match dlookup "symbol" (match ci with | .obj fs => fs | _ => []) with
    | some v => jAsKeyStr v
    | none => "UNKNOWN"
  { primary := true
    key := symbol ++ "_" ++ cmcId
    val := .obj
      [("type", .str "cryptocurrency_info"),
       ("name", jget ci "name"),
       ("symbol", jget ci "symbol"),
       ("description", jget ci "description"),
       ("category", jget ci "category"),
       ("date_added", jget ci "date_added"),
       ("platform", jget ci "platform"),
       ("urls", jget ci "urls"),
       ("tags", jget ci "tags"),
       ("logo", jget ci "logo"),
       ("source", .str source),
       ("cmc_id", .str cmcId),
       ("current_price", price),
       ("percent_change_24h", change),
       ("circulating_supply", supply0),
       ("total_supply", totalSupply),
       ("max_supply", maxSupply),
       ("market_cap", marketCap),
       ("volume_24h", volume),
       ("rank", rank)] }

/-- Market-quote record for one cryptocurrency entry, shared between the
dict-keyed and list-shaped quotes payloads. -/
def cmcMarketRecord (symbolVal : JData) (crypto : JData) (source : String) : JData :=
  .obj
    [("type", .str "market_data"),
     ("name", jget crypto "name"),
     ("symbol", symbolVal),
     ("cmc_id", jget crypto "id"),
     ("rank", jget crypto "cmc_rank"),
     ("price", jpath crypto ["quote", "USD", "price"]),
     ("market_cap", jpath crypto ["quote", "USD", "market_cap"]),
     ("volume_24h", jpath crypto ["quote", "USD", "volume_24h"]),
     ("percent_change_24h", jpath crypto ["quote", "USD", "percent_change_24h"]),
     ("percent_change_7d", jpath crypto ["quote", "USD", "percent_change_7d"]),
     ("circulating_supply", jget crypto "circulating_supply"),
     ("total_supply", jget crypto "total_supply"),
     ("max_supply", jget crypto "max_supply"),
     ("source", .str source)]

/-- Writes produced by merging a CoinMarketCap result, covering the
cryptocurrency-info payload, symbol-keyed quotes, listings, and global
metrics. -/
def cmcWrites (data : JData) (source : String) (query_intent : String) : List MWrite :=
  match data with
  | .obj fields =>
    if source = "coinmarketcap_info" && (dlookup "data" fields).isSome then
      match (dlookup "data" fields).getD .null with
      | .obj entries => entries.map fun e => cmcInfoRecord e.1 e.2 source
      | _ => []
    else
      match dlookup "data" fields with
      | some marketData =>
        match marketData with
        | .obj entries =>
          if entries.any (fun e => jisObj e.2 && jhasKey e.2 "quote") then
            entries.filterMap fun e =>
              match e.2 with
              | .obj _ =>
                let symVal := jget e.2 "symbol"
                let symbolVal := if jtruthy symVal then symVal else JData.str e.1
                let symbolKey := if jtruthy symVal then jAsKeyStr symVal else e.1
                some { primary := true
                       key := "market_" ++ symbolKey
                       val := cmcMarketRecord symbolVal e.2 source }
              | _ => none
          else if jhasKey marketData "quote" then
            [{ primary := false
               key := "global_metrics"
               val := .obj
                 [("type", .str "global_metrics"),
                  ("total_market_cap", jpath marketData ["quote", "USD", "total_market_cap"]),
                  ("total_volume_24h", jpath marketData ["quote", "USD", "total_volume_24h"]),
                  ("bitcoin_dominance", jget marketData "btc_dominance"),
                  ("active_cryptocurrencies", jget marketData "active_cryptocurrencies"),
                  ("source", .str source)] }]
          else []
        | .arr items =>
          items.filterMap fun crypto =>
            match crypto with
            | .obj _ =>
              let symbolVal := if jhasKey crypto "symbol" then jget crypto "symbol" else JData.str "UNKNOWN"
              some { primary := true
                     key := "market_" ++ jAsKeyStr symbolVal
                     val := cmcMarketRecord symbolVal crypto source }
            | _ => none
        | _ => []
      | none => []
  | _ => []

/-- Writes produced by merging a Dune Analytics result: a primary DEX-trading
aggregate when the rows look like DEX pairs, otherwise a supplementary
blockchain-analytics record; empty or non-list payloads contribute
nothing. -/
def duneWrites (data : JData) (source : String) (query_intent : String) : List MWrite :=
  match data with
  | .arr (p0 :: rest) =>
    let pairs := p0 :: rest
    if jisObj p0 &&
        (jhasKey p0 "token_pair" || jhasKey p0 "pair_address" ||
          jhasKey p0 "one_day_volume" || jhasKey p0 "seven_day_volume") then
      [{ primary := true
         key := "dex_trading"
         val := .obj
           [("type", .str "dex_data"),
            ("pairs", .arr pairs),
            ("total_pairs", .num (pairs.length : ℚ)),
            ("total_24h_volume", .num (pairs.foldl (fun a p => a + jnumVal (jget p "one_day_volume")) 0)),
            ("total_7d_volume", .num (pairs.foldl (fun a p => a + jnumVal (jget p "seven_day_volume")) 0)),
            ("total_liquidity", .num (pairs.foldl (fun a p => a + jnumVal (jget p "usd_liquidity")) 0)),
            ("top_pairs", .arr (pairs.take 5)),
            ("source", .str source)] }]
    else
      [{ primary := false
         key := "blockchain_analytics"
         val := .obj
           [("type", .str "analytics_data"),
            ("data", .arr pairs),
            ("source", .str source)] }]
  | _ => []

/-- Writes produced by merging an Etherscan result: a wallet balance when the
result entry is a digit string, a transaction list when it is a nonempty
list, nothing otherwise. -/
def etherscanWrites (data : JData) (source : String) (query_intent : String) : List MWrite :=
  match data with
  | .obj fields =>
    match dlookup "result" fields with
    | some (.str res) =>
      if res.data ≠ [] && res.data.all Char.isDigit then
        [{ primary := false
           key := "wallet_balance"
           val := .obj
             [("type", .str "wallet_balance"),
              ("balance_wei", .str res),
              ("balance_eth", .num ((digitsToNat res.data : ℚ) / (10 : ℚ) ^ (18 : ℕ))),
              ("source", .str source)] }]
      else []
    | some (.arr (t0 :: ts)) =>
      [{ primary := false
         key := "transactions"
         val := .obj
           [("type", .str "transaction_data"),
            ("transactions", .arr ((t0 :: ts).take 10)),
            ("total_count", .num (((t0 :: ts).length : ℚ))),
            ("source", .str source)] }]
    | _ => []
  | _ => []

/-- Sample of the first up-to-five entries when the value is a list, as used
by the DefiLlama overview records; a non-list value raises in the source. -/
def jsample (v : JData) (n : Nat) : JData :=
  match v with
  | .arr xs => .arr (xs.take n)
  | _ => .arr []

/-- Length of a list value with the explicit zero default of the source. -/
def jlistLen (v : JData) : ℚ :=
  match v with
  | .arr xs => (xs.length : ℚ)
  | _ => 0

/-- Writes produced by merging a DefiLlama result: decomposition of an
aggregate bundle, recognized overview shapes, and verbatim fallbacks keyed by
the endpoint hint from the result metadata. -/
def llamaWrites (data : JData) (metadata : JData) (query_intent : String) : List MWrite :=
  if jisObj data && jtruthy (jget data "aggregate") then
    (if jisObj (jget data "tvl") then
      [{ primary := false, key := "defillama_tvl", val := jget data "tvl" }] else []) ++
    (if jisObj (jget data "stablecoins") then
      [{ primary := false, key := "defillama_stablecoins", val := jget data "stablecoins" }] else []) ++
    (if jisObj (jget data "dex") then
      [{ primary := false, key := "defillama_dex", val := jget data "dex" }] else []) ++
    (if jisObj (jget data "fees") then
      [{ primary := false, key := "defillama_fees", val := jget data "fees" }] else []) ++
    (if jisObj (jget data "yields") then
      [{ primary := false, key := "defillama_yields", val := jget data "yields" }] else []) ++
    (if jisObj (jget data "bridges") then
      [{ primary := false, key := "defillama_bridges", val := jget data "bridges" }] else [])
  else if jisObj data && (jhasKey data "peggedAssets" || jhasKey data "chains") then
    [{ primary := false
       key := "stablecoins_overview"
       val := .obj
         [("type", .str "stablecoins_overview"),
          ("pegged_assets_count", .num (jlistLen (jget data "peggedAssets"))),
          ("chains_count", .num (jlistLen (jget data "chains"))),
          ("sample_assets", jsample (jget data "peggedAssets") 5),
          ("sample_chains", jsample (jget data "chains") 5)] }]
  else if jisObj data && (jhasKey data "protocols" || jhasKey data "totalDataChart") then
    [{ primary := false
       key := "defi_overview"
       val := .obj
         [("type", .str "defi_overview"),
          ("protocols_count", .num (jlistLen (jget data "protocols"))),
          ("sample_protocols", jsample (jget data "protocols") 5)] }]
  else if jisObj data && jhasKey data "bridges" then
    [{ primary := false
       key := "bridges_overview"
       val := .obj
         [("type", .str "bridges_overview"),
          ("bridges_count", .num (jlistLen (jget data "bridges"))),
          ("sample_bridges", jsample (jget data "bridges") 5)] }]
  else
    let resultMeta := if jtruthy metadata then metadata else JData.obj []
    let endpointHintVal := if jhasKey resultMeta "endpoint" then jget resultMeta "endpoint" else JData.str "defillama_data"
    let endpointHint := jAsKeyStr endpointHintVal
    match data with
    | .arr items =>
      let key := if jtruthy endpointHintVal then endpointHint else "defillama_list"
      [{ primary := false
         key := key
         val := .obj
           [("type", .str "defillama_list"),
            ("endpoint", endpointHintVal),
            ("chain", jget resultMeta "chain"),
            ("count", .num (items.length : ℚ)),
            ("items", .arr (items.take 50))] }]
    | .obj fields =>
      let key := if jtruthy endpointHintVal then endpointHint else "defillama_data"
      let value := if (dlookup "type" fields).isSome then JData.obj fields
        else JData.obj (fields ++ [("type", .str "defillama_data")])
      [{ primary := false, key := key, val := value }]
    | _ =>
      [{ primary := false
         key := "defillama"
         val := .obj
           [("type", .str "defillama_data"),
            ("endpoint", endpointHintVal),
            ("value", data)] }]

/-- Record writes contributed by one successful tool result, dispatched on
its source tag; sources outside the recognized providers contribute no
records. The query intent is threaded through as in the source, which never
reads it in the merge helpers. -/
def writesOf (r : ToolResult) (query_intent : String) : List MWrite :=
  let src := srcOf r
  if src = "coinmarketcap" || src = "coinmarketcap_info" then
    cmcWrites r.data src query_intent
  else if src = "dune_analytics" || src = "dune_analytics_sql" then
    duneWrites r.data src query_intent
  else if src = "etherscan" then
    etherscanWrites r.data src query_intent
  else if src = "defillama" then
    llamaWrites r.data r.metadata query_intent
  else []

/-- Merged dataset assembled from the tool results: primary and supplementary
partitions, metadata with the sources used in processing order, a fixed data
quality tag, the completeness score, and the (always empty) conflict
list. -/
structure MergedData where
  primary_data : Dict
  supplementary_data : Dict
  sources_used : List String
  data_quality : String
  completeness_score : ℚ
  conflicts : List JData

/-- Apply one record write to the pair of partitions. -/
def applyWrite (st : Dict × Dict) (w : MWrite) : Dict × Dict :=
  if w.primary then (dinsert w.key w.val st.1, st.2)
  else (st.1, dinsert w.key w.val st.2)

/-- Apply a list of record writes in order. -/
def applyWrites (st : Dict × Dict) (ws : List MWrite) : Dict × Dict :=
  ws.foldl applyWrite st

/-- Accumulator step of the merge loop: skip unsuccessful results, otherwise
record the source tag and apply the writes of the result. -/
def mergeStep (qi : String) (st : Dict × Dict × List String) (r : ToolResult) :
    Dict × Dict × List String :=
  if r.success then
    let parts := applyWrites (st.1, st.2.1) (writesOf r qi)
    (parts.1, parts.2, st.2.2 ++ [srcOf r])
  else st

/-! Completeness scoring. -/

/-- Derived observations of a merged dataset consumed by the scoring
function, computed up front exactly as the source does. -/
structure ScoreInputs where
  hasCryptoInfo : Bool
  hasMarketData : Bool
  hasDexData : Bool
  hasGlobalMetrics : Bool
  hasWalletData : Bool
  hasTransactionData : Bool
  hasBlockchainAnalytics : Bool
  sourceCount : Nat
  sourcesNonempty : Bool
  totalDataPoints : Nat
  dataNonempty : Bool

/-- Observations of the partitions and sources list: presence markers via
substring search over the rendered records, direct key membership, distinct
source count, and record counts. -/
def scoreInputsOf (p s : Dict) (srcs : List String) : ScoreInputs where
  hasCryptoInfo := (dvalues p).any (jcontains "cryptocurrency_info")
  hasMarketData := (dvalues p).any (jcontains "market_data")
  hasDexData := (dkeys p).contains "dex_trading"
  hasGlobalMetrics := (dkeys s).contains "global_metrics"
  hasWalletData := (dkeys s).contains "wallet_balance"
  hasTransactionData := (dkeys s).contains "transactions"
  hasBlockchainAnalytics := (dkeys s).contains "blockchain_analytics"
  sourceCount := srcs.dedup.length
  sourcesNonempty := !srcs.isEmpty
  totalDataPoints := p.length + s.length
  dataNonempty := !p.isEmpty || !s.isEmpty

/-- Intent-specific bonus of the scoring function. -/
def intentBonus (inp : ScoreInputs) (qi : String) : ℚ :=
  if qi = "information" then
    (if inp.hasCryptoInfo then 35 else 0) + (if inp.hasMarketData then 20 else 0) +
      (if inp.hasGlobalMetrics then 10 else 0)
  else if qi = "market_data" then
    (if inp.hasMarketData then 40 else 0) + (if inp.hasGlobalMetrics then 20 else 0) +
      (if inp.hasDexData then 25 else 0)
  else if qi = "technical" then
    (if inp.hasDexData then 35 else 0) + (if inp.hasBlockchainAnalytics then 25 else 0) +
      (if inp.hasTransactionData then 15 else 0)
  else if qi = "analysis" then
    let cnt : Nat :=
      (if inp.hasMarketData then 1 else 0) + (if inp.hasCryptoInfo then 1 else 0) +
        (if inp.hasDexData then 1 else 0) + (if inp.hasGlobalMetrics then 1 else 0) +
        (if inp.hasTransactionData then 1 else 0) + (if inp.hasBlockchainAnalytics then 1 else 0)
    (if inp.hasMarketData then 25 else 0) + (if inp.hasCryptoInfo then 20 else 0) +
      (if inp.hasDexData then 15 else 0) + (if inp.hasGlobalMetrics then 10 else 0) +
      (if inp.hasTransactionData then 10 else 0) + (if inp.hasBlockchainAnalytics then 10 else 0) +
      (if 4 ≤ cnt then 10 else 0)
  else
    (if inp.hasMarketData then 30 else 0) + (if inp.hasCryptoInfo then 20 else 0) +
      (if inp.hasDexData then 15 else 0) + (if inp.hasGlobalMetrics then 10 else 0) +
      (if inp.hasBlockchainAnalytics then 10 else 0)

/-- Scoring from the derived observations: base points for any data,
intent-specific bonus, source-diversity bonus, data-richness bonus, a floor
of 20 when sources and data are present, and a cap of 100. -/
def scoreFrom (inp : ScoreInputs) (qi : String) : ℚ :=
  let base : ℚ := if inp.dataNonempty then 15 else 0
  let diversity : ℚ :=
    if 3 ≤ inp.sourceCount then 15
    else if inp.sourceCount = 2 then 10
    else if inp.sourceCount = 1 then 5
    else 0
  let richness : ℚ :=
    if 5 ≤ inp.totalDataPoints then 10
    else if 3 ≤ inp.totalDataPoints then 5
    else 0
  let score := base + intentBonus inp qi + diversity + richness
  let floored := if inp.sourcesNonempty && inp.dataNonempty then max score 20 else score
  min floored 100

/-- Model of the completeness-score computation over the partitions, the
sources list and the query intent. -/
def _calculate_completeness_score (p s : Dict) (srcs : List String) (qi : String) : ℚ :=
  scoreFrom (scoreInputsOf p s srcs) qi

/-- Model of the data merge: fold the results through the merge step and
attach the completeness score. -/
def _merge_tool_data (results : List ToolResult) (query_intent : String) : MergedData :=
  let st := results.foldl (mergeStep query_intent) ([], [], [])
  { primary_data := st.1
    supplementary_data := st.2.1
    sources_used := st.2.2
    data_quality := "high"
    completeness_score := _calculate_completeness_score st.1 st.2.1 st.2.2 query_intent
    conflicts := [] }

/-! Canonical data selection. -/

/-- Test used by the canonical market selection: a dict record whose type
entry equals the market-data tag. -/
def isMarketRecord (v : JData) : Bool :=
  jisObj v &&
    (match jget v "type" with
     | .str t => t == "market_data"
     | _ => false)

/-- Entry of the canonical view: field name mapped to source tag and
record. -/
abbrev CanonEntry := String × String × JData

/-- Helper adding a canonical section when the stored value is a dict. -/
def canonIfObj (d : Dict) (storedKey field source : String) : List CanonEntry :=
  match dlookup storedKey d with
  | some v => if jisObj v then [(field, source, v)] else []
  | none => []

/-- Model of the canonical selection: one source of truth per section, with
the DefiLlama-led sections first, then the first market record in insertion
order, the DEX pairs aggregate, and the Etherscan wallet and transaction
records. -/
def _select_canonical_data (md : MergedData) : List CanonEntry :=
  canonIfObj md.supplementary_data "defillama_tvl" "tvl" "defillama" ++
  canonIfObj md.supplementary_data "defillama_stablecoins" "stablecoins" "defillama" ++
  canonIfObj md.supplementary_data "defillama_dex" "dex_overview" "defillama" ++
  canonIfObj md.supplementary_data "defillama_fees" "fees_overview" "defillama" ++
  canonIfObj md.supplementary_data "defillama_yields" "yields" "defillama" ++
  canonIfObj md.supplementary_data "defillama_bridges" "bridges" "defillama" ++
  (match ((dvalues md.primary_data).filter isMarketRecord).head? with
   | some m => [("market", "coinmarketcap", m)]
   | none => []) ++
  canonIfObj md.primary_data "dex_trading" "dex_trading" "dune_analytics" ++
  canonIfObj md.supplementary_data "wallet_balance" "wallet_balance" "etherscan" ++
  canonIfObj md.supplementary_data "transactions" "transactions" "etherscan"

/-- Key-value pairs written to the partition selected by the flag, in write
order. -/
def kvsOf (b : Bool) (ws : List MWrite) : List (String × JData) :=
  (ws.filter (fun w => w.primary == b)).map (fun w => (w.key, w.val))

/-- Application of a key-value write list to a single partition. -/
def foldD (t : Dict) (ws : List (String × JData)) : Dict :=
  ws.foldl (fun d kv => dinsert kv.1 kv.2 d) t

/-- Keys written by a result to the selected partition. -/
def wkeys (b : Bool) (r : ToolResult) (qi : String) : List String :=
  (kvsOf b (writesOf r qi)).map Prod.fst

/-- Disjointness of the record keys written by two results, per
partition. -/
def WDisj (qi : String) (r1 r2 : ToolResult) : Prop :=
  List.Disjoint (wkeys true r1 qi) (wkeys true r2 qi) ∧
    List.Disjoint (wkeys false r1 qi) (wkeys false r2 qi)

/-- Symbol entry of the market section of the canonical view, when it is a
string. -/
def canonicalMarketSymbol (md : MergedData) : Option String :=
  match (_select_canonical_data md).find? (fun e => e.1 == "market") with
  | some e =>
    match jget e.2.2 "symbol" with
    | .str s => some s
    | _ => none
  | none => none

/-! Session management. -/

/-- Message stored in a session chat history: role flag and content. -/
structure ChatMsg where
  isUser : Bool
  content : String

/-- Conversation session record; time stamps are abstract ticks supplied by
the caller in place of wall-clock readings, and the chat history object is a
message list. -/
structure PySession where
  id : String
  chat_history : List ChatMsg
  created_at : Nat
  last_activity : Nat
  message_count : Nat
  context_summary : String
  research_context : Dict

/-- Fresh session created for an unseen id. -/
def freshSession (sid : String) (now : Nat) : PySession :=
  { id := sid, chat_history := [], created_at := now, last_activity := now,
    message_count := 0, context_summary := "", research_context := [] }

/-- Session manager state: insertion-ordered session table, capacity, and
idle timeout in the same abstract time units as the ticks. -/
structure SessionMgr where
  sessions : List (String × PySession)
  max_sessions : Nat
  session_timeout : Nat

/-- Stable ascending insertion for the sort by last activity: an entry is
placed after every entry whose key does not exceed its own, matching the
stability of the Python sort. -/
def insertByLA (x : String × PySession) :
    List (String × PySession) → List (String × PySession)
  | [] => [x]
  | y :: l =>
    if y.2.last_activity ≤ x.2.last_activity then y :: insertByLA x l
    else x :: y :: l

/-- Stable sort by last activity, processing entries left to right. -/
def sortByLA (l : List (String × PySession)) : List (String × PySession) :=
  l.foldl (fun acc x => insertByLA x acc) []

/-- Model of the cleanup run at the start of every get-or-create call: drop
sessions idle beyond the timeout; then, if the table still exceeds capacity,
delete the least-recently-active sessions from the table (which keeps its
insertion order) until capacity holds. -/
def _cleanup_expired_sessions (m : SessionMgr) (now : Nat) : SessionMgr :=
  let kept := m.sessions.filter fun kv => !(decide (m.session_timeout < now - kv.2.last_activity))
  if m.max_sessions < kept.length then
    let doomed := ((sortByLA kept).take (kept.length - m.max_sessions)).map Prod.fst
    { m with sessions := kept.filter fun kv => !(doomed.contains kv.1) }
  else
    { m with sessions := kept }

/-- Model of get_or_create_session for a supplied session id (the source
draws a fresh UUID when the id argument is absent, modelled by the caller
passing the fresh id): run the cleanup, then refresh the last activity of an
existing session or append a fresh one. -/
def get_or_create_session (m : SessionMgr) (now : Nat) (sid : String) : SessionMgr :=
  let m1 := _cleanup_expired_sessions m now
  if (m1.sessions.map Prod.fst).contains sid then
    { m1 with sessions := m1.sessions.map fun kv =>
        if kv.1 = sid then (kv.1, { kv.2 with last_activity := now }) else kv }
  else
    { m1 with sessions := m1.sessions ++ [(sid, freshSession sid now)] }

/-! Research requests, planning, dispatch, and the orchestrator. -/

/-- Research request; the source constructor fills the data-sources and
session-id defaults, so the model receives them already populated. -/
structure PyRequest where
  query : String
  address : Option String
  time_range : String
  data_sources : List String
  session_id : String

/-- Python truthiness of the optional address field. -/
def addrTruthy : Option String → Bool
  | some s => s ≠ ""
  | none => false

/-- ASCII lowercasing of a query without stripping, as used by the intent
classification and the planner. -/
def pyLower (s : String) : List Char := s.data.map lowerChar

/-- Membership of any keyword of the list in the lowered query. -/
def anyKw (ql : List Char) (kws : List String) : Bool :=
  kws.any fun k => occursIn k.data ql

/-- Sample address substituted by the planner (Ethereum Foundation). -/
def sampleAddress : String := "0xde0B295669a9FD93d5F28D9Ec85E40f4cb697BAe"

/-- Keywords selecting the Dune Analytics adapter. -/
def duneKeywords : List String :=
  ["bitcoin", "btc", "ethereum", "eth", "analysis", "investment", "trading",
   "volume", "dex", "swap", "whale", "performance", "trend"]

/-- Keywords selecting the DefiLlama adapter. -/
def llamaKeywords : List String :=
  ["tvl", "protocol", "defi", "stablecoin", "apy", "yield", "fees", "revenue", "bridge"]

/-- Keywords selecting the Etherscan adapter. -/
def etherscanKeywords : List String :=
  ["bitcoin", "btc", "ethereum", "eth", "analysis", "investment", "transaction",
   "network", "activity"]

/-- Keywords under which the planner substitutes the sample address. -/
def sampleAddrKeywords : List String :=
  ["bitcoin", "btc", "ethereum", "eth", "analysis", "investment"]

/-- Keywords marking investment or analysis queries that force extra
adapters. -/
def investKeywords : List String :=
  ["invest", "investment", "analysis", "should i", "good idea", "recommend"]

/-- Result of the planning step: ordered tool list, reasoning steps, and the
request as left by the planner, which assigns the sample address on the
request object itself. -/
structure PlanResult where
  tools : List String
  steps : List String
  req : PyRequest

/-- Model of the research planner: CoinMarketCap always, Dune and DefiLlama
on keyword hits, Etherscan on keyword hits or a present address (with the
sample-address substitution), forced extra adapters for investment queries,
and a minimum of two tools. -/
def _plan_research (request : PyRequest) : PlanResult :=
  let ql := pyLower request.query
  let tools1 := ["coinmarketcap_tool"]
  let steps1 := ["Query analysis completed",
    "Selected CoinMarketCap for market data and price analysis"]
  let p2 :=
    if anyKw ql duneKeywords then
      (tools1 ++ ["dune_analytics_tool"],
       steps1 ++ ["Selected Dune Analytics for blockchain metrics and trading data"])
    else (tools1, steps1)
  let p3 :=
    if anyKw ql llamaKeywords then
      (p2.1 ++ ["defillama_tool"],
       p2.2 ++ ["Selected DefiLlama for TVL, yields, stablecoins, fees, bridges, prices"])
    else p2
  let p4 :=
    if anyKw ql etherscanKeywords || addrTruthy request.address then
      let pA :=
        if !addrTruthy request.address && anyKw ql sampleAddrKeywords then
          (some sampleAddress,
           p3.2 ++ ["Using sample Ethereum address for on-chain analysis demonstration"])
        else (request.address, p3.2)
      if addrTruthy pA.1 then
        (pA.1, p3.1 ++ ["etherscan_tool"],
         pA.2 ++ ["Selected Etherscan for on-chain transaction analysis"])
      else (pA.1, p3.1, pA.2)
    else (request.address, p3.1, p3.2)
  let p5 :=
    if anyKw ql investKeywords then
      let pB :=
        if !p4.2.1.contains "dune_analytics_tool" then
          (p4.2.1 ++ ["dune_analytics_tool"],
           p4.2.2 ++ ["Added Dune Analytics for comprehensive investment analysis"])
        else (p4.2.1, p4.2.2)
      let pC :=
        if !pB.1.contains "defillama_tool" then
          (pB.1 ++ ["defillama_tool"],
           pB.2 ++ ["Added DefiLlama for protocol TVL and yields context"])
        else pB
      if !pC.1.contains "etherscan_tool" then
        let addrC := if !addrTruthy p4.1 then some sampleAddress else p4.1
        (addrC, pC.1 ++ ["etherscan_tool"],
         pC.2 ++ ["Added Etherscan for blockchain network health analysis"])
      else (p4.1, pC.1, pC.2)
    else p4
  let p6 :=
    if p5.2.1.length < 2 then
      let pD :=
        if !p5.2.1.contains "dune_analytics_tool" then
          (p5.2.1 ++ ["dune_analytics_tool"],
           p5.2.2 ++ ["Added Dune Analytics for comprehensive data coverage"])
        else (p5.2.1, p5.2.2)
      if !pD.1.contains "defillama_tool" then
        (pD.1 ++ ["defillama_tool"],
         pD.2 ++ ["Added DefiLlama for broader DeFi coverage"])
      else pD
    else (p5.2.1, p5.2.2)
  let steps7 := p6.2 ++
    ["Final tool selection: " ++ toString p6.1.length ++ " tools for maximum data completeness"]
  { tools := p6.1, steps := steps7, req := { request with address := p5.1 } }

/-- Outcome of awaiting one adapter task under the gather barrier: a raised
exception, a non-dict value, or a result dictionary. -/
inductive Outcome where
  | exn
  | nondict
  | val (r : ToolResult)

/-- Planned tools the dispatcher actually starts: the Etherscan adapter is
skipped up front when the request has no address, and unknown tool names are
skipped with a warning. -/
def invokableTools (request : PyRequest) (tool_names : List String) : List String :=
  tool_names.filter fun t =>
    t == "dune_analytics_tool" || t == "defillama_tool" || t == "coinmarketcap_tool" ||
      (t == "etherscan_tool" && addrTruthy request.address)

/-- Model of the parallel dispatcher: every invokable planned tool is
started; the gather barrier captures per-task exceptions, which are dropped
together with non-dict values, while result dictionaries (successful or not)
are kept in task order. Returns the invoked tools and the kept results. -/
def _execute_parallel_tools (request : PyRequest) (tool_names : List String)
    (outcomes : String → Outcome) : List String × List ToolResult :=
  let invoked := invokableTools request tool_names
  (invoked,
   invoked.filterMap fun t =>
     match outcomes t with
     | .val r => some r
     | _ => none)

/-- Keywords classified as analysis intent. -/
def analysisKeywords : List String := ["analyze", "analysis", "performance", "how is", "doing"]

/-- Keywords classified as information intent. -/
def informationKeywords : List String :=
  ["info about", "information about", "what is", "tell me about", "details about"]

/-- Keywords classified as market-data intent. -/
def marketKeywords : List String := ["price", "trading", "volume", "market", "trends"]

/-- Keywords classified as comparison intent. -/
def comparisonKeywords : List String := ["compare", "vs", "versus", "difference"]

/-- Keywords classified as technical intent. -/
def technicalKeywords : List String := ["dex", "whale", "technical", "data"]

/-- Intent classification of a non-greeting query by ordered keyword
membership over the lowered text. -/
def classifyIntent (query : String) : String :=
  let ql := pyLower query
  if anyKw ql analysisKeywords then "analysis"
  else if anyKw ql informationKeywords then "information"
  else if anyKw ql marketKeywords then "market_data"
  else if anyKw ql comparisonKeywords then "comparison"
  else if anyKw ql technicalKeywords then "technical"
  else "general"

/-- Citation record attached to a successful research response; the
wall-clock timestamp of the source is omitted from the model. -/
structure Citation where
  source : String
  query_context : String

/-- Fields of the greeting fast-path response carried by the model (the
metadata sub-dictionary holds only constants and appears in the key
list). -/
structure GreetRet where
  success : Bool
  result : String
  reasoning_steps : List String
  citations : List Citation
  data_sources_used : List String
  query_intent : String
  session_id : String
  completeness_score : ℚ

/-- Fields of the non-greeting success response carried by the model. -/
structure OkRet where
  success : Bool
  result : String
  reasoning_steps : List String
  citations : List Citation
  data_sources_used : List String
  query_intent : String
  merged_data : MergedData
  data_quality_score : ℚ
  tool_results : List ToolResult

/-- Fields of the failure response carried by the model. -/
structure FailRet where
  success : Bool
  error : String
  reasoning_steps : List String
  citations : List Citation
  data_sources_used : List String
  query_intent : String

/-- Response of the research coroutine: greeting fast path, non-greeting
success, or failure. -/
inductive RResult where
  | greet (g : GreetRet)
  | ok (o : OkRet)
  | fail (f : FailRet)

/-- Key list of the Python dictionary literal returned on each path of the
research coroutine, transcribed from the source return statements. -/
def rkeys : RResult → List String
  | .greet _ =>
    ["success", "result", "reasoning_steps", "citations", "data_sources_used",
     "execution_time", "query_intent", "session_id", "completeness_score", "metadata"]
  | .ok _ =>
    ["success", "result", "reasoning_steps", "citations", "data_sources_used",
     "execution_time", "query_intent", "merged_data", "data_quality_score", "tool_results"]
  | .fail _ =>
    ["success", "error", "reasoning_steps", "citations", "data_sources_used",
     "execution_time", "query_intent"]

/-- Formatting of the final result: an intent-specific header, the
synthesized prose, and a data-summary footer naming the sources used. The
decorative emoji, the data-quality indicator and the percentage rendering of
the source are abbreviated, as no settled claim reads the rendered text. -/
def _format_final_result (result : String) (query_intent : String) (md : MergedData) : String :=
  let header :=
    if query_intent = "analysis" then "COMPREHENSIVE ANALYSIS REPORT"
    else if query_intent = "information" then "CRYPTOCURRENCY INFORMATION"
    else if query_intent = "market_data" then "MARKET ANALYSIS"
    else if query_intent = "technical" then "TECHNICAL DATA ANALYSIS"
    else if query_intent = "comparison" then "COMPARATIVE ANALYSIS"
    else "RESEARCH RESULTS"
  header ++ "\n\n" ++ result ++ "\n\nData Summary, Sources Used: " ++
    String.intercalate ", " md.sources_used

/-- First hundred characters of a query, used as citation context. -/
def takeChars (n : Nat) (s : String) : String := String.mk (s.data.take n)

/-- Model of the research orchestrator for one request. Wall-clock readings,
logging and session-table side effects do not influence the returned mapping
and are left out; the nondeterministically chosen greeting phrase, the
session conversation summary and the language-model synthesis outcome are
parameters. The try-except around the greeting path returns the same
claim-relevant constants with a fixed fallback phrase and is not modelled
separately, and the only modelled failure source on the non-greeting path is
the synthesis call. The deduplication of the reported data sources goes
through a Python set whose iteration order is unspecified; the model keeps
first occurrences. Returns the response together with the list of adapter
invocations made. -/
def research (selfSessionId : String) (request : PyRequest) (greetResponse : String)
    (conversationSummary : String) (outcomes : String → Outcome)
    (synth : Except String String) : RResult × List String :=
  if detect_greeting request.query then
    let sid :=
      if request.session_id ≠ "" && request.session_id ≠ selfSessionId then request.session_id
      else selfSessionId
    (.greet
      { success := true
        result := greetResponse
        reasoning_steps := ["Detected greeting message - provided friendly AI response"]
        citations := []
        data_sources_used := []
        query_intent := "greeting"
        session_id := sid
        completeness_score := 1 }, [])
  else
    let query_intent := classifyIntent request.query
    let steps0 :=
      if conversationSummary ≠ "" then ["Referencing conversation history"] else []
    let steps1 := steps0 ++
      ["Analyzing query and planning approach (Intent: " ++ query_intent ++ ")"]
    let plan := _plan_research request
    let exec := _execute_parallel_tools plan.req plan.tools outcomes
    let invoked := exec.1
    let tool_results := exec.2
    let data_sources_used := (tool_results.filter (·.success)).map srcOf
    let steps2 := steps1 ++ plan.steps ++ ["Merging and analyzing data from all sources"]
    let merged := _merge_tool_data tool_results query_intent
    let steps3 := steps2 ++ ["Synthesizing comprehensive response based on merged data"]
    match synth with
    | .ok raw =>
      let final := _format_final_result raw query_intent merged
      (.ok
        { success := true
          result := final
          reasoning_steps := steps3
          citations := data_sources_used.dedup.map fun s =>
            { source := s, query_context := takeChars 100 request.query }
          data_sources_used := data_sources_used.dedup
          query_intent := query_intent
          merged_data := merged
          data_quality_score := merged.completeness_score
          tool_results := tool_results }, invoked)
    | .error e =>
      (.fail
        { success := false
          error := e
          reasoning_steps := steps3
          citations := []
          data_sources_used := data_sources_used
          query_intent := query_intent }, invoked)

/-- Value of the success entry of a research response. -/
def responseSuccess : RResult → Bool
  | .greet g => g.success
  | .ok o => o.success
  | .fail f => f.success

/-- Whether the response is the non-greeting success dictionary. -/
def responseIsOk : RResult → Bool
  | .ok _ => true
  | _ => false

/-- Value of the data-sources-used entry of a research response. -/
def responseDataSources : RResult → List String
  | .greet g => g.data_sources_used
  | .ok o => o.data_sources_used
  | .fail f => f.data_sources_used

/-- Completeness score reported by a research response: the
completeness-score entry on the greeting path, the data-quality-score entry
on the success path, and nothing on the failure path. -/
def responseScore : RResult → Option ℚ
  | .greet g => some g.completeness_score
  | .ok o => some o.data_quality_score
  | .fail _ => none

/-! Concrete fixtures used by witnesses and counterexamples. -/

/-- Default data sources filled by the request constructor. -/
def defaultSources : List String := ["dune", "etherscan", "coinmarketcap"]

/-- Request carrying the plain greeting query Hello. -/
def reqHello : PyRequest := ⟨"Hello", none, "7d", defaultSources, "sess"⟩

/-- Request whose query opens with the word hey followed by a research
question. -/
def reqHeyAnalyze : PyRequest :=
  ⟨"hey analyze bitcoin performance", none, "7d", defaultSources, "sess"⟩

/-- Non-greeting information request. -/
def reqWhatIs : PyRequest := ⟨"what is bitcoin", none, "7d", defaultSources, "sess"⟩

/-- Non-greeting analysis request without an address. -/
def reqAnalysis : PyRequest := ⟨"analysis", none, "7d", defaultSources, "sess"⟩

/-- Successful Etherscan result whose data dictionary is empty. -/
def rEthEmpty : ToolResult := ⟨some "etherscan", true, .obj [], none, .null⟩

/-- Successful CoinMarketCap quotes result for one symbol at a given
price. -/
def cmcResult (sym : String) (price : ℚ) : ToolResult :=
  ⟨some "coinmarketcap", true,
   .obj [("data", .obj [(sym, .obj [("symbol", .str sym),
     ("quote", .obj [("USD", .obj [("price", .num price)])])])])],
   none, .null⟩

/-! Helper lemmas. -/

/-- Every list is a prefix of itself extended on the right. -/
theorem beginsWith_append_self (l r : List Char) : beginsWith l (l ++ r) = true := by
  induction l with
  | nil => rfl
  | cons c cs ih => simp [beginsWith, ih]

/-- Sources accumulated by the merge fold extend the accumulator with the
source tags of the successful results in order. -/
theorem foldl_mergeStep_sources (qi : String) (rs : List ToolResult) :
    ∀ acc : Dict × Dict × List String,
      (rs.foldl (mergeStep qi) acc).2.2 = acc.2.2 ++ (rs.filter (·.success)).map srcOf := by
  induction rs with
  | nil => intro acc; simp
  | cons r rs ih =>
    intro acc
    cases hr : r.success with
    | false => simp [mergeStep, hr, ih]
    | true => simp [mergeStep, hr, ih]

/-- Completeness score of the empty merged dataset is zero for every
intent. -/
theorem score_empty (qi : String) : _calculate_completeness_score [] [] [] qi = 0 := by
  simp [_calculate_completeness_score, scoreInputsOf, scoreFrom, intentBonus,
    dvalues, dkeys, List.dedup]

/-- Dispatcher results under outcomes that all raise are empty. -/
theorem execute_all_exn (request : PyRequest) (names : List String)
    (outcomes : String → Outcome) (h : ∀ t, outcomes t = .exn) :
    (_execute_parallel_tools request names outcomes).2 = [] := by
  simp only [_execute_parallel_tools]
  refine List.filterMap_eq_nil_iff.mpr fun t _ => ?_
  rw [h t]

/-! Claim theorems. -/

/-- C2 counterexample: a successful Etherscan result whose data dictionary
lacks the result entry is listed in sources_used while both record
partitions stay empty, so a source can appear without having contributed a
record. -/
theorem merge_lists_source_without_record :
    (_merge_tool_data
        [{ source := some "etherscan", success := true, data := .obj [],
           error := none, metadata := .null }] "general").sources_used = ["etherscan"] ∧
    (_merge_tool_data
        [{ source := some "etherscan", success := true, data := .obj [],
           error := none, metadata := .null }] "general").primary_data = [] ∧
    (_merge_tool_data
        [{ source := some "etherscan", success := true, data := .obj [],
           error := none, metadata := .null }] "general").supplementary_data = [] :=
  ⟨rfl, rfl, rfl⟩

/-- C2 amended: sources_used lists exactly the source tags of the successful
results in processing order, whether or not the result contributed any
record to the partitions. -/
theorem merge_sources_are_successful_sources (rs : List ToolResult) (qi : String) :
    (_merge_tool_data rs qi).sources_used = (rs.filter (·.success)).map srcOf := by
  simpa [_merge_tool_data] using foldl_mergeStep_sources qi rs ([], [], [])

/-- C5: for every request whose query is detected as a greeting, research
answers on the fast path with success, greeting intent, completeness score
one, no data sources, no citations, and no adapter invocations. -/
theorem research_greeting_fast_path (selfSid : String) (req : PyRequest)
    (greet conv : String) (outcomes : String → Outcome) (synth : Except String String)
    (h : detect_greeting req.query = true) :
    ∃ g : GreetRet,
      research selfSid req greet conv outcomes synth = (.greet g, []) ∧
      g.success = true ∧ g.query_intent = "greeting" ∧ g.completeness_score = 1 ∧
      g.data_sources_used = [] ∧ g.citations = [] := by
  refine ⟨{ success := true, result := greet,
            reasoning_steps := ["Detected greeting message - provided friendly AI response"],
            citations := [], data_sources_used := [], query_intent := "greeting",
            session_id := if req.session_id ≠ "" && req.session_id ≠ selfSid then
              req.session_id else selfSid,
            completeness_score := 1 }, ?_, rfl, rfl, rfl, rfl, rfl⟩
  simp [research, h]

/-- C5 witness: the query Hello is a greeting and research on it takes the
fast path with the claimed constants. -/
theorem research_greeting_fast_path_witness :
    detect_greeting "Hello" = true ∧
    ∃ g : GreetRet,
      research "sess" reqHello "Hi there" "" (fun _ => .exn) (.ok "prose") = (.greet g, []) ∧
      g.success = true ∧ g.query_intent = "greeting" ∧ g.completeness_score = 1 ∧
      g.data_sources_used = [] ∧ g.citations = [] :=
  ⟨by decide,
   research_greeting_fast_path "sess" reqHello "Hi there" "" (fun _ => .exn) (.ok "prose")
     (by decide)⟩

/-- C6: when the query is not a greeting, every planned adapter invocation
raises, and the synthesis call succeeds, research still returns a success
with an empty data-sources list and a completeness score of zero rather than
a failure. -/
theorem research_all_adapters_raise (selfSid : String) (req : PyRequest)
    (greet conv raw : String) (outcomes : String → Outcome)
    (hng : detect_greeting req.query = false) (hexn : ∀ t, outcomes t = .exn) :
    responseIsOk (research selfSid req greet conv outcomes (.ok raw)).1 = true ∧
    responseSuccess (research selfSid req greet conv outcomes (.ok raw)).1 = true ∧
    responseDataSources (research selfSid req greet conv outcomes (.ok raw)).1 = [] ∧
    responseScore (research selfSid req greet conv outcomes (.ok raw)).1 = some 0 := by
  have hres := execute_all_exn (_plan_research req).req (_plan_research req).tools outcomes hexn
  refine ⟨?_, ?_, ?_, ?_⟩ <;>
    simp [research, hng, hres, responseIsOk, responseSuccess, responseDataSources,
      responseScore, _merge_tool_data, score_empty]

/-- C6 witness: a concrete non-greeting request whose every adapter raises
still yields a success with no sources and a zero score. -/
theorem research_all_adapters_raise_witness :
    detect_greeting reqWhatIs.query = false ∧
    responseIsOk (research "sess" reqWhatIs "g" "" (fun _ => .exn) (.ok "prose")).1 = true ∧
    responseSuccess (research "sess" reqWhatIs "g" "" (fun _ => .exn) (.ok "prose")).1 = true ∧
    responseDataSources (research "sess" reqWhatIs "g" "" (fun _ => .exn) (.ok "prose")).1 = [] ∧
    responseScore (research "sess" reqWhatIs "g" "" (fun _ => .exn) (.ok "prose")).1 = some 0 :=
  ⟨by decide,
   research_all_adapters_raise "sess" reqWhatIs "g" "" "prose" (fun _ => .exn)
     (by decide) (fun _ => rfl)⟩

/-- C4 amended: the greeting path returns exactly the nine claimed keys plus
a metadata key, while the non-greeting success path returns seven of the
claimed keys and reports the score under the data-quality-score key, with no
session-id and no completeness-score entry. -/
theorem research_return_key_lists (selfSid : String) (req : PyRequest)
    (greet conv raw : String) (outcomes : String → Outcome) (synth : Except String String) :
    (detect_greeting req.query = true →
      rkeys (research selfSid req greet conv outcomes synth).1 =
        ["success", "result", "reasoning_steps", "citations", "data_sources_used",
         "execution_time", "query_intent", "session_id", "completeness_score", "metadata"]) ∧
    (detect_greeting req.query = false → synth = .ok raw →
      rkeys (research selfSid req greet conv outcomes synth).1 =
        ["success", "result", "reasoning_steps", "citations", "data_sources_used",
         "execution_time", "query_intent", "merged_data", "data_quality_score",
         "tool_results"]) := by
  constructor
  · intro h
    simp [research, h, rkeys]
  · intro h hs
    subst hs
    simp [research, h, rkeys]

/-- C4 counterexample: on a concrete non-greeting request the success
mapping contains neither a completeness-score key nor a session-id key. -/
theorem research_missing_claimed_keys :
    detect_greeting reqWhatIs.query = false ∧
    "completeness_score" ∉ rkeys (research "sess" reqWhatIs "g" "" (fun _ => .exn) (.ok "p")).1 ∧
    "session_id" ∉ rkeys (research "sess" reqWhatIs "g" "" (fun _ => .exn) (.ok "p")).1 := by
  refine ⟨by decide, ?_, ?_⟩ <;> decide

/-- C4 witness: the key lists computed by the amended theorem at concrete
greeting and non-greeting inputs. -/
theorem research_return_key_lists_witness :
    rkeys (research "sess" reqHello "g" "" (fun _ => .exn) (.ok "p")).1 =
      ["success", "result", "reasoning_steps", "citations", "data_sources_used",
       "execution_time", "query_intent", "session_id", "completeness_score", "metadata"] ∧
    rkeys (research "sess" reqWhatIs "g" "" (fun _ => .exn) (.ok "p")).1 =
      ["success", "result", "reasoning_steps", "citations", "data_sources_used",
       "execution_time", "query_intent", "merged_data", "data_quality_score",
       "tool_results"] :=
  ⟨(research_return_key_lists "sess" reqHello "g" "" "p" (fun _ => .exn) (.ok "p")).1
     (by decide),
   (research_return_key_lists "sess" reqWhatIs "g" "" "p" (fun _ => .exn) (.ok "p")).2
     (by decide) rfl⟩

/-- C7: adapter invocations that raise are absent from the dispatcher
results without affecting sibling invocations, result dictionaries are kept
whether successful or not, and the Etherscan adapter is skipped before
invocation when the request has no usable address. -/
theorem execute_parallel_tools_isolation (request : PyRequest) (tool_names : List String)
    (outcomes : String → Outcome) :
    (∀ r ∈ (_execute_parallel_tools request tool_names outcomes).2,
       ∃ t ∈ tool_names, outcomes t = .val r) ∧
    (∀ t ∈ (_execute_parallel_tools request tool_names outcomes).1, ∀ r,
       outcomes t = .val r → r ∈ (_execute_parallel_tools request tool_names outcomes).2) ∧
    (addrTruthy request.address = false →
       "etherscan_tool" ∉ (_execute_parallel_tools request tool_names outcomes).1) := by
  refine ⟨?_, ?_, ?_⟩
  · intro r hr
    simp only [_execute_parallel_tools, List.mem_filterMap] at hr
    obtain ⟨t, ht, hv⟩ := hr
    simp only [invokableTools, List.mem_filter] at ht
    refine ⟨t, ht.1, ?_⟩
    revert hv
    cases outcomes t <;> simp
  · intro t ht r hv
    simp only [_execute_parallel_tools, List.mem_filterMap]
    exact ⟨t, ht, by rw [hv]⟩
  · intro ha
    simp [_execute_parallel_tools, invokableTools, List.mem_filter, ha]

/-- C7 witness: with no address on the request, a planned Etherscan
invocation is skipped by the dispatcher. -/
theorem execute_parallel_tools_isolation_witness :
    addrTruthy reqWhatIs.address = false ∧
    "etherscan_tool" ∉
      (_execute_parallel_tools reqWhatIs ["etherscan_tool", "coinmarketcap_tool"]
        (fun _ => .exn)).1 :=
  ⟨by decide,
   (execute_parallel_tools_isolation reqWhatIs ["etherscan_tool", "coinmarketcap_tool"]
      (fun _ => .exn)).2.2 (by decide)⟩

/-- C9 amended: the planner leaves the query, time range, data sources and
session id of the request unchanged, but it may overwrite an absent address
with the sample address, so the request is not immutable. -/
theorem plan_research_field_effects (request : PyRequest) :
    ((_plan_research request).req.query = request.query ∧
     (_plan_research request).req.time_range = request.time_range ∧
     (_plan_research request).req.data_sources = request.data_sources ∧
     (_plan_research request).req.session_id = request.session_id) ∧
    ((_plan_research request).req.address = request.address ∨
     (addrTruthy request.address = false ∧
      (_plan_research request).req.address = some sampleAddress)) := by
  constructor
  · exact ⟨rfl, rfl, rfl, rfl⟩
  · cases hE : anyKw (pyLower request.query) etherscanKeywords <;>
    cases hA : addrTruthy request.address <;>
    cases hS : anyKw (pyLower request.query) sampleAddrKeywords <;>
    cases hI : anyKw (pyLower request.query) investKeywords <;>
    cases hD : anyKw (pyLower request.query) duneKeywords <;>
    cases hL : anyKw (pyLower request.query) llamaKeywords <;>
      simp_all [_plan_research, addrTruthy, sampleAddress]

/-- C9 counterexample: the planner assigns the sample address on a request
that was constructed without one, mutating the request in place. -/
theorem plan_research_mutates_address :
    reqAnalysis.address = none ∧
    (_plan_research reqAnalysis).req.address = some sampleAddress := by
  exact ⟨rfl, by decide⟩

/-- C10: every query whose lowercased stripped text begins with hi, hello or
hey as a whole word is detected as a greeting, and research takes the
greeting fast path with zero adapter invocations. -/
theorem research_word_prefix_greeting (selfSid : String) (req : PyRequest)
    (greet conv : String) (outcomes : String → Outcome) (synth : Except String String)
    (g : String) (hg : g = "hi" ∨ g = "hello" ∨ g = "hey") (rest : List Char)
    (hpre : pyLowerStrip req.query = g.data ++ rest)
    (hbd : ∀ c, rest.head? = some c → isWordChar c = false) :
    detect_greeting req.query = true ∧
    (research selfSid req greet conv outcomes synth).2 = [] ∧
    ∃ gr, (research selfSid req greet conv outcomes synth).1 = .greet gr := by
  have hword : wordAt g (pyLowerStrip req.query) = true := by
    rw [hpre]
    unfold wordAt
    rw [beginsWith_append_self, List.drop_left]
    cases hrest : rest with
    | nil => rfl
    | cons c cs => simp [hbd c (by simp [hrest])]
  have hdet : detect_greeting req.query = true := by
    unfold detect_greeting matchLeadingHi
    rcases hg with h | h | h <;> subst h <;> simp [hword]
  refine ⟨hdet, by simp [research, hdet], ?_⟩
  simp only [research, hdet, if_true]
  exact ⟨_, rfl⟩

/-- C10 witness: a query opening with hey followed by a research question is
detected as a greeting and research makes no adapter invocations on it. -/
theorem research_word_prefix_greeting_witness :
    detect_greeting reqHeyAnalyze.query = true ∧
    (research "sess" reqHeyAnalyze "g" "" (fun _ => .exn) (.ok "p")).2 = [] ∧
    ∃ gr, (research "sess" reqHeyAnalyze "g" "" (fun _ => .exn) (.ok "p")).1 = .greet gr :=
  research_word_prefix_greeting "sess" reqHeyAnalyze "g" "" (fun _ => .exn) (.ok "p")
    "hey" (by decide) (" analyze bitcoin performance".data) (by decide)
    (fun c hc => by
      simp only [String.data] at hc
      rw [show (" analyze bitcoin performance".data.head?) = some ' ' from by decide] at hc
      cases hc
      decide)

/-- Cleanup is the identity on a table of fresh sessions created at the
current instant whose size is within capacity. -/
theorem cleanup_fresh_within_capacity (N tmo t : Nat) (pre : List String)
    (hsize : pre.length ≤ N) :
    _cleanup_expired_sessions ⟨pre.map (fun sid => (sid, freshSession sid t)), N, tmo⟩ t =
      ⟨pre.map (fun sid => (sid, freshSession sid t)), N, tmo⟩ := by
  have hfilter :
      (pre.map (fun sid => (sid, freshSession sid t))).filter
        (fun kv => !(decide (tmo < t - kv.2.last_activity))) =
        pre.map (fun sid => (sid, freshSession sid t)) := by
    apply List.filter_eq_self.mpr
    intro kv hkv
    obtain ⟨sid, _, rfl⟩ := List.mem_map.mp hkv
    simp [freshSession]
  simp only [_cleanup_expired_sessions, hfilter]
  rw [if_neg]
  simp only [List.length_map]
  omega

/-- Fold of get-or-create calls over fresh distinct ids starting from a
table of fresh sessions: every call appends, none evicts, as long as the
total stays at most one above capacity. -/
theorem fold_goc_fresh (N tmo t : Nat) (ids : List String) :
    ∀ pre : List String, (pre ++ ids).Nodup → pre.length + ids.length ≤ N + 1 →
      (ids.foldl (fun m sid => get_or_create_session m t sid)
          ⟨pre.map (fun sid => (sid, freshSession sid t)), N, tmo⟩).sessions =
        (pre ++ ids).map (fun sid => (sid, freshSession sid t)) := by
  induction ids with
  | nil => intro pre _ _; simp
  | cons a l ih =>
    intro pre hnd hle
    have hsize : pre.length ≤ N := by
      have := hle
      simp only [List.length_cons] at this
      omega
    have hnotmem : a ∉ pre := fun hmem =>
      (List.nodup_append.mp hnd).2.2 hmem (List.mem_cons_self a l)
    have hstep :
        get_or_create_session ⟨pre.map (fun sid => (sid, freshSession sid t)), N, tmo⟩ t a =
          ⟨(pre ++ [a]).map (fun sid => (sid, freshSession sid t)), N, tmo⟩ := by
      unfold get_or_create_session
      rw [cleanup_fresh_within_capacity N tmo t pre hsize]
      have hcont : ((pre.map (fun sid => (sid, freshSession sid t))).map Prod.fst).contains a
          = false := by
        simp [List.map_map, Function.comp, hnotmem]
      simp [hcont]
      exact fun hmem => absurd hmem hnotmem
    rw [List.foldl_cons, hstep]
    have := ih (pre ++ [a]) (by simpa using hnd) (by simp at hle ⊢; omega)
    simpa using this

/-- C1 amended: after N plus one get-or-create calls with distinct ids and
no idle time on an initially empty manager of capacity N, no session is
evicted: the table holds all the sessions in insertion order and so exceeds
capacity by one, the cleanup having run before each insertion and therefore
deferring eviction to a later call. -/
theorem session_eviction_deferred (N tmo t : Nat) (ids : List String)
    (hnd : ids.Nodup) (hlen : ids.length = N + 1) :
    (ids.foldl (fun m sid => get_or_create_session m t sid) ⟨[], N, tmo⟩).sessions =
      ids.map (fun sid => (sid, freshSession sid t)) := by
  have := fold_goc_fresh N tmo t ids [] (by simpa using hnd) (by simp [hlen])
  simpa using this

/-- C1 witness: two distinct ids on a capacity-one manager leave both
sessions in the table. -/
theorem session_eviction_deferred_witness :
    (["a", "b"] : List String).Nodup ∧ (["a", "b"] : List String).length = 1 + 1 ∧
    ((["a", "b"] : List String).foldl (fun m sid => get_or_create_session m 0 sid)
        ⟨[], 1, 5⟩).sessions =
      ["a", "b"].map (fun sid => (sid, freshSession sid 0)) :=
  ⟨by decide, by decide, session_eviction_deferred 1 5 0 ["a", "b"] (by decide) (by decide)⟩

/-- C1 counterexample: with capacity two and three distinct ids at one
instant, the final table holds all three sessions, so the size exceeds the
capacity and no session was evicted. -/
theorem session_capacity_exceeded :
    ((get_or_create_session (get_or_create_session
        (get_or_create_session ⟨[], 2, 5⟩ 0 "a") 0 "b") 0 "c").sessions.map Prod.fst)
      = ["a", "b", "c"] ∧
    2 < ((get_or_create_session (get_or_create_session
        (get_or_create_session ⟨[], 2, 5⟩ 0 "a") 0 "b") 0 "c").sessions).length := by
  decide

/-- Monotone selection of a nonnegative bonus under an implication of the
guarding conditions. -/
theorem iteP_mono {P Q : Prop} [Decidable P] [Decidable Q] (c : ℚ) (hc : 0 ≤ c)
    (h : P → Q) : (if P then c else 0) ≤ (if Q then c else 0) := by
  split_ifs with h1 h2
  · exact le_refl c
  · exact absurd (h h1) h2
  · exact hc
  · exact le_refl 0

/-- Monotone selection of a natural count under an implication of the
guarding conditions. -/
theorem iteN_mono {P Q : Prop} [Decidable P] [Decidable Q] (c : Nat) (h : P → Q) :
    (if P then c else 0) ≤ (if Q then c else 0) := by
  split_ifs with h1 h2
  · exact le_refl c
  · exact absurd (h h1) h2
  · exact Nat.zero_le c
  · exact le_refl 0

set_option maxHeartbeats 1000000 in
/-- Intent bonus is monotone when every presence flag only gains. -/
theorem intentBonus_mono (i1 i2 : ScoreInputs) (qi : String)
    (hc : i1.hasCryptoInfo = true → i2.hasCryptoInfo = true)
    (hm : i1.hasMarketData = true → i2.hasMarketData = true)
    (hd : i1.hasDexData = true → i2.hasDexData = true)
    (hg : i1.hasGlobalMetrics = true → i2.hasGlobalMetrics = true)
    (ht : i1.hasTransactionData = true → i2.hasTransactionData = true)
    (ha : i1.hasBlockchainAnalytics = true → i2.hasBlockchainAnalytics = true) :
    intentBonus i1 qi ≤ intentBonus i2 qi := by
  unfold intentBonus
  have hcnt :
      ((if i1.hasMarketData then 1 else 0) + (if i1.hasCryptoInfo then 1 else 0) +
        (if i1.hasDexData then 1 else 0) + (if i1.hasGlobalMetrics then 1 else 0) +
        (if i1.hasTransactionData then 1 else 0) +
        (if i1.hasBlockchainAnalytics then 1 else 0) : Nat) ≤
      ((if i2.hasMarketData then 1 else 0) + (if i2.hasCryptoInfo then 1 else 0) +
        (if i2.hasDexData then 1 else 0) + (if i2.hasGlobalMetrics then 1 else 0) +
        (if i2.hasTransactionData then 1 else 0) +
        (if i2.hasBlockchainAnalytics then 1 else 0) : Nat) :=
    Nat.add_le_add (Nat.add_le_add (Nat.add_le_add (Nat.add_le_add (Nat.add_le_add
      (iteN_mono 1 hm) (iteN_mono 1 hc)) (iteN_mono 1 hd)) (iteN_mono 1 hg))
      (iteN_mono 1 ht)) (iteN_mono 1 ha)
  rcases eq_or_ne qi "information" with h1 | h1
  · simp only [h1, eq_self_iff_true, if_true]
    exact add_le_add (add_le_add (iteP_mono 35 (by norm_num) hc)
      (iteP_mono 20 (by norm_num) hm)) (iteP_mono 10 (by norm_num) hg)
  simp only [if_neg h1]
  rcases eq_or_ne qi "market_data" with h2 | h2
  · simp only [h2, eq_self_iff_true, if_true]
    exact add_le_add (add_le_add (iteP_mono 40 (by norm_num) hm)
      (iteP_mono 20 (by norm_num) hg)) (iteP_mono 25 (by norm_num) hd)
  simp only [if_neg h2]
  rcases eq_or_ne qi "technical" with h3 | h3
  · simp only [h3, eq_self_iff_true, if_true]
    exact add_le_add (add_le_add (iteP_mono 35 (by norm_num) hd)
      (iteP_mono 25 (by norm_num) ha)) (iteP_mono 15 (by norm_num) ht)
  simp only [if_neg h3]
  rcases eq_or_ne qi "analysis" with h4 | h4
  · simp only [h4, eq_self_iff_true, if_true]
    exact add_le_add (add_le_add (add_le_add (add_le_add (add_le_add (add_le_add
      (iteP_mono 25 (by norm_num) hm) (iteP_mono 20 (by norm_num) hc))
      (iteP_mono 15 (by norm_num) hd)) (iteP_mono 10 (by norm_num) hg))
      (iteP_mono 10 (by norm_num) ht)) (iteP_mono 10 (by norm_num) ha))
      (iteP_mono 10 (by norm_num) fun hcount => le_trans hcount hcnt)
  simp only [if_neg h4]
  exact add_le_add (add_le_add (add_le_add (add_le_add
    (iteP_mono 30 (by norm_num) hm) (iteP_mono 20 (by norm_num) hc))
    (iteP_mono 15 (by norm_num) hd)) (iteP_mono 10 (by norm_num) hg))
    (iteP_mono 10 (by norm_num) ha)

set_option maxHeartbeats 1000000 in
/-- Score is monotone in the derived observations when the flags only gain,
the record count only grows, and the sources are unchanged. -/
theorem scoreFrom_mono (i1 i2 : ScoreInputs) (qi : String)
    (hc : i1.hasCryptoInfo = true → i2.hasCryptoInfo = true)
    (hm : i1.hasMarketData = true → i2.hasMarketData = true)
    (hd : i1.hasDexData = true → i2.hasDexData = true)
    (hg : i1.hasGlobalMetrics = true → i2.hasGlobalMetrics = true)
    (ht : i1.hasTransactionData = true → i2.hasTransactionData = true)
    (ha : i1.hasBlockchainAnalytics = true → i2.hasBlockchainAnalytics = true)
    (hsc : i2.sourceCount = i1.sourceCount)
    (hsn : i2.sourcesNonempty = i1.sourcesNonempty)
    (htot : i1.totalDataPoints ≤ i2.totalDataPoints)
    (hdn : i1.dataNonempty = true → i2.dataNonempty = true) :
    scoreFrom i1 qi ≤ scoreFrom i2 qi := by
  simp only [scoreFrom]
  have hbase : (if i1.dataNonempty then (15 : ℚ) else 0) ≤
      (if i2.dataNonempty then (15 : ℚ) else 0) := iteP_mono 15 (by norm_num) hdn
  have hrich :
      (if 5 ≤ i1.totalDataPoints then (10 : ℚ)
       else if 3 ≤ i1.totalDataPoints then 5 else 0) ≤
      (if 5 ≤ i2.totalDataPoints then (10 : ℚ)
       else if 3 ≤ i2.totalDataPoints then 5 else 0) := by
    split_ifs <;> first | omega | norm_num
  have hscore :
      (if i1.dataNonempty then (15 : ℚ) else 0) + intentBonus i1 qi +
        (if 3 ≤ i1.sourceCount then (15 : ℚ)
         else if i1.sourceCount = 2 then 10 else if i1.sourceCount = 1 then 5 else 0) +
        (if 5 ≤ i1.totalDataPoints then (10 : ℚ)
         else if 3 ≤ i1.totalDataPoints then 5 else 0) ≤
      (if i2.dataNonempty then (15 : ℚ) else 0) + intentBonus i2 qi +
        (if 3 ≤ i2.sourceCount then (15 : ℚ)
         else if i2.sourceCount = 2 then 10 else if i2.sourceCount = 1 then 5 else 0) +
        (if 5 ≤ i2.totalDataPoints then (10 : ℚ)
         else if 3 ≤ i2.totalDataPoints then 5 else 0) := by
    rw [hsc]
    exact add_le_add (add_le_add (add_le_add hbase
      (intentBonus_mono i1 i2 qi hc hm hd hg ht ha)) (le_refl _)) hrich
  refine min_le_min ?_ (le_refl (100 : ℚ))
  cases hcond : (i1.sourcesNonempty && i1.dataNonempty) with
  | true =>
    simp only [Bool.and_eq_true] at hcond
    have h3 : i2.dataNonempty = true := hdn hcond.2
    have h4 : i2.sourcesNonempty = true := by rw [hsn]; exact hcond.1
    simp only [hcond.1, hcond.2, h3, h4, Bool.and_self, eq_self_iff_true,
      if_true] at hscore ⊢
    exact max_le_max hscore (le_refl 20)
  | false =>
    simp only [hcond, Bool.false_eq_true, if_false]
    cases h2 : (i2.sourcesNonempty && i2.dataNonempty) with
    | true =>
      simp only [h2, eq_self_iff_true, if_true]
      exact le_trans hscore (le_max_left _ _)
    | false =>
      simp only [h2, Bool.false_eq_true, if_false]
      exact hscore

/-- Membership propagates from a list to its extension on the right. -/
theorem contains_append_left (l r : List String) (x : String)
    (h : l.contains x = true) : (l ++ r).contains x = true := by
  simp at h ⊢
  exact Or.inl h

/-- Fresh insertion into a dict appends the binding at the end. -/
theorem dinsert_fresh (k : String) (v : JData) (d : Dict) (h : k ∉ dkeys d) :
    dinsert k v d = d ++ [(k, v)] := by
  induction d with
  | nil => rfl
  | cons kv t ih =>
    obtain ⟨k1, v1⟩ := kv
    simp only [dkeys, List.map_cons, List.mem_cons, not_or] at h
    simp only [dinsert]
    rw [if_neg fun he => h.1 he.symm, ih (by simpa [dkeys] using h.2)]
    simp

/-- C8: inserting one record under a fresh key into either partition never
decreases the completeness score, for every intent and sources list; in
particular adding a record of a previously absent type never lowers the
score. -/
theorem completeness_score_monotone (p s : Dict) (srcs : List String) (qi : String)
    (k : String) (v : JData) :
    (k ∉ dkeys p →
      _calculate_completeness_score p s srcs qi ≤
        _calculate_completeness_score (dinsert k v p) s srcs qi) ∧
    (k ∉ dkeys s →
      _calculate_completeness_score p s srcs qi ≤
        _calculate_completeness_score p (dinsert k v s) srcs qi) := by
  constructor
  · intro hk
    rw [dinsert_fresh k v p hk]
    unfold _calculate_completeness_score
    refine scoreFrom_mono _ _ qi ?_ ?_ ?_ ?_ ?_ ?_ ?_ ?_ ?_ ?_
    · intro h
      simp only [scoreInputsOf, dvalues, List.map_append, List.any_append] at h ⊢
      simp only [h, Bool.true_or]
    · intro h
      simp only [scoreInputsOf, dvalues, List.map_append, List.any_append] at h ⊢
      simp only [h, Bool.true_or]
    · intro h
      simp only [scoreInputsOf, dkeys, List.map_append] at h ⊢
      exact contains_append_left _ _ _ h
    · exact fun h => h
    · exact fun h => h
    · exact fun h => h
    · rfl
    · rfl
    · simp only [scoreInputsOf, List.length_append]
      omega
    · intro h
      simp [scoreInputsOf]
  · intro hk
    rw [dinsert_fresh k v s hk]
    unfold _calculate_completeness_score
    refine scoreFrom_mono _ _ qi ?_ ?_ ?_ ?_ ?_ ?_ ?_ ?_ ?_ ?_
    · exact fun h => h
    · exact fun h => h
    · exact fun h => h
    · intro h
      simp only [scoreInputsOf, dkeys, List.map_append] at h ⊢
      exact contains_append_left _ _ _ h
    · intro h
      simp only [scoreInputsOf, dkeys, List.map_append] at h ⊢
      exact contains_append_left _ _ _ h
    · intro h
      simp only [scoreInputsOf, dkeys, List.map_append] at h ⊢
      exact contains_append_left _ _ _ h
    · rfl
    · rfl
    · simp only [scoreInputsOf, List.length_append]
      omega
    · intro h
      simp [scoreInputsOf]

/-- Primary component of the write application is the fold of the primary
key-value writes. -/
theorem applyWrites_fst (ws : List MWrite) :
    ∀ p s : Dict, (applyWrites (p, s) ws).1 = foldD p (kvsOf true ws) := by
  induction ws with
  | nil => intro p s; rfl
  | cons w ws ih =>
    intro p s
    cases hw : w.primary <;>
      simp [applyWrites, applyWrite, hw, kvsOf, foldD, List.foldl_cons] <;>
      simpa [applyWrites, kvsOf, foldD] using ih _ _

/-- Supplementary component of the write application is the fold of the
supplementary key-value writes. -/
theorem applyWrites_snd (ws : List MWrite) :
    ∀ p s : Dict, (applyWrites (p, s) ws).2 = foldD s (kvsOf false ws) := by
  induction ws with
  | nil => intro p s; rfl
  | cons w ws ih =>
    intro p s
    cases hw : w.primary <;>
      simp [applyWrites, applyWrite, hw, kvsOf, foldD, List.foldl_cons] <;>
      simpa [applyWrites, kvsOf, foldD] using ih _ _

/-- Primary partition accumulated by the merge fold is the fold of the
primary writes of the successful results in order. -/
theorem foldl_mergeStep_fst (qi : String) (rs : List ToolResult) :
    ∀ acc : Dict × Dict × List String,
      (rs.foldl (mergeStep qi) acc).1 =
        foldD acc.1 ((rs.filter (·.success)).flatMap fun r => kvsOf true (writesOf r qi)) := by
  induction rs with
  | nil => intro acc; rfl
  | cons r rs ih =>
    intro acc
    cases hr : r.success with
    | false => simp [mergeStep, hr, ih]
    | true =>
      simp only [List.foldl_cons, mergeStep, hr, if_true, List.filter_cons_of_pos,
        List.flatMap_cons]
      rw [ih]
      simp [applyWrites_fst, foldD, List.foldl_append]

/-- Supplementary partition accumulated by the merge fold is the fold of the
supplementary writes of the successful results in order. -/
theorem foldl_mergeStep_snd (qi : String) (rs : List ToolResult) :
    ∀ acc : Dict × Dict × List String,
      (rs.foldl (mergeStep qi) acc).2.1 =
        foldD acc.2.1 ((rs.filter (·.success)).flatMap fun r => kvsOf false (writesOf r qi)) := by
  induction rs with
  | nil => intro acc; rfl
  | cons r rs ih =>
    intro acc
    cases hr : r.success with
    | false => simp [mergeStep, hr, ih]
    | true =>
      simp only [List.foldl_cons, mergeStep, hr, if_true, List.filter_cons_of_pos,
        List.flatMap_cons]
      rw [ih]
      simp [applyWrites_snd, foldD, List.foldl_append]

/-- Insertion with a key absent from a prefix skips the prefix. -/
theorem dinsert_append_of_not_mem (k : String) (v : JData) :
    ∀ t u : Dict, k ∉ dkeys t → dinsert k v (t ++ u) = t ++ dinsert k v u := by
  intro t
  induction t with
  | nil => intro u _; rfl
  | cons kv t ih =>
    intro u h
    obtain ⟨k1, v1⟩ := kv
    simp only [dkeys, List.map_cons, List.mem_cons, not_or] at h
    simp only [List.cons_append, dinsert, List.append_eq]
    rw [if_neg fun he => h.1 he.symm, ih u (by simpa [dkeys] using h.2)]

/-- Keys of a dict grow by a cons on the key list. -/
theorem dkeys_cons (k1 : String) (v1 : JData) (t : Dict) :
    dkeys ((k1, v1) :: t) = k1 :: dkeys t := rfl

/-- Keys after an insertion are among the old keys and the inserted key. -/
theorem mem_dkeys_dinsert (k : String) (v : JData) :
    ∀ (t : Dict) (y : String), y ∈ dkeys (dinsert k v t) → y ∈ dkeys t ∨ y = k := by
  intro t
  induction t with
  | nil =>
    intro y hy
    simp [dinsert, dkeys] at hy
    exact Or.inr hy
  | cons kv t ih =>
    obtain ⟨k1, v1⟩ := kv
    intro y hy
    simp only [dinsert] at hy
    by_cases he : k1 = k
    · rw [if_pos he, dkeys_cons] at hy
      rcases List.mem_cons.mp hy with hy | hy
      · exact Or.inr hy
      · exact Or.inl (by rw [dkeys_cons]; exact List.mem_cons_of_mem _ hy)
    · rw [if_neg he, dkeys_cons] at hy
      rcases List.mem_cons.mp hy with hy | hy
      · exact Or.inl (by rw [dkeys_cons]; exact hy ▸ List.mem_cons_self _ _)
      · rcases ih y hy with h2 | h2
        · exact Or.inl (by rw [dkeys_cons]; exact List.mem_cons_of_mem _ h2)
        · exact Or.inr h2

/-- Keys of a fold are among the starting keys and the written keys. -/
theorem dkeys_foldD_subset (ws : List (String × JData)) :
    ∀ (t : Dict) (x : String), x ∈ dkeys (foldD t ws) → x ∈ dkeys t ∨ x ∈ ws.map Prod.fst := by
  induction ws with
  | nil => intro t x hx; exact Or.inl hx
  | cons kv ws ih =>
    intro t x hx
    rcases ih (dinsert kv.1 kv.2 t) x (by simpa [foldD] using hx) with h | h
    · rcases mem_dkeys_dinsert kv.1 kv.2 t x h with h2 | h2
      · exact Or.inl h2
      · exact Or.inr (by simp [h2])
    · exact Or.inr (by rw [List.map_cons]; exact List.mem_cons_of_mem _ h)

/-- Fold of writes whose keys avoid a prefix leaves the prefix in place. -/
theorem foldD_front_fixed (ws : List (String × JData)) :
    ∀ (t u : Dict), (∀ kv ∈ ws, kv.1 ∉ dkeys t) →
      foldD (t ++ u) ws = t ++ foldD u ws := by
  induction ws with
  | nil => intro t u _; rfl
  | cons kv ws ih =>
    intro t u h
    simp only [foldD, List.foldl_cons]
    rw [show (dinsert kv.1 kv.2 (t ++ u)) = t ++ dinsert kv.1 kv.2 u from
      dinsert_append_of_not_mem kv.1 kv.2 t u (h kv (List.mem_cons_self kv ws))]
    exact ih t (dinsert kv.1 kv.2 u) fun kv2 h2 => h kv2 (List.mem_cons_of_mem kv h2)

/-- Fold of pairwise key-disjoint blocks is the concatenation of the folds
of the blocks. -/
theorem foldD_flatten_blocks (blocks : List (List (String × JData)))
    (hdisj : blocks.Pairwise fun b1 b2 =>
      List.Disjoint (b1.map Prod.fst) (b2.map Prod.fst)) :
    foldD [] blocks.flatten = (blocks.map (foldD [])).flatten := by
  induction blocks with
  | nil => rfl
  | cons B rest ih =>
    rw [List.pairwise_cons] at hdisj
    have hfold : foldD [] (B :: rest).flatten = foldD (foldD [] B) rest.flatten := by
      simp [foldD, List.flatten_cons, List.foldl_append]
    rw [hfold]
    have hkeys : ∀ kv ∈ rest.flatten, kv.1 ∉ dkeys (foldD [] B) := by
      intro kv hkv hmem
      rcases dkeys_foldD_subset B [] kv.1 hmem with h | h
      · simp [dkeys] at h
      · obtain ⟨Bi, hBi, hkvBi⟩ := List.mem_flatten.mp hkv
        exact hdisj.1 Bi hBi h (List.mem_map_of_mem Prod.fst hkvBi)
    have := foldD_front_fixed rest.flatten (foldD [] B) [] hkeys
    simp only [List.append_nil] at this
    rw [this, ih hdisj.2]
    simp [List.flatten_cons]

/-- Permuted lists of blocks have permuted concatenations. -/
theorem perm_flatten {α : Type} {l1 l2 : List (List α)} (h : l1.Perm l2) :
    l1.flatten.Perm l2.flatten := by
  induction h with
  | nil => exact List.Perm.refl _
  | cons x _ ih => simpa [List.flatten_cons] using ih.append_left x
  | swap x y l =>
    simp only [List.flatten_cons]
    rw [← List.append_assoc, ← List.append_assoc]
    exact (List.perm_append_comm).append_right _
  | trans _ _ ih1 ih2 => exact ih1.trans ih2

/-- Permuted lists agree on the any combinator. -/
theorem any_perm {α : Type} {l1 l2 : List α} (h : l1.Perm l2) (f : α → Bool) :
    l1.any f = l2.any f := by
  cases hh : l2.any f with
  | false =>
    rw [List.any_eq_false] at hh ⊢
    exact fun x hx => hh x (h.mem_iff.mp hx)
  | true =>
    rw [List.any_eq_true] at hh ⊢
    obtain ⟨x, hx, hf⟩ := hh
    exact ⟨x, h.mem_iff.mpr hx, hf⟩

/-- Permuted string lists agree on containment. -/
theorem contains_perm {l1 l2 : List String} (h : l1.Perm l2) (x : String) :
    l1.contains x = l2.contains x := by
  cases hh : l2.contains x with
  | false =>
    simp only [List.contains_eq_any_beq] at hh ⊢
    rw [← hh]
    exact any_perm h _
  | true =>
    simp only [List.contains_eq_any_beq] at hh ⊢
    rw [← hh]
    exact any_perm h _

/-- Permuted lists agree on emptiness. -/
theorem isEmpty_perm {α : Type} {l1 l2 : List α} (h : l1.Perm l2) :
    l1.isEmpty = l2.isEmpty := by
  have hlen := h.length_eq
  cases l1 <;> cases l2 <;> simp_all

/-- Completeness score is invariant under permutation of the partitions and
of the sources list. -/
theorem score_perm (p1 p2 s1 s2 : Dict) (srcs1 srcs2 : List String) (qi : String)
    (hp : p1.Perm p2) (hs : s1.Perm s2) (hsrc : srcs1.Perm srcs2) :
    _calculate_completeness_score p1 s1 srcs1 qi =
      _calculate_completeness_score p2 s2 srcs2 qi := by
  unfold _calculate_completeness_score
  have hinputs : scoreInputsOf p1 s1 srcs1 = scoreInputsOf p2 s2 srcs2 := by
    simp only [scoreInputsOf, ScoreInputs.mk.injEq, dvalues, dkeys]
    refine ⟨?_, ?_, ?_, ?_, ?_, ?_, ?_, ?_, ?_, ?_, ?_⟩
    · exact any_perm (hp.map Prod.snd) _
    · exact any_perm (hp.map Prod.snd) _
    · exact contains_perm (hp.map Prod.fst) _
    · exact contains_perm (hs.map Prod.fst) _
    · exact contains_perm (hs.map Prod.fst) _
    · exact contains_perm (hs.map Prod.fst) _
    · exact contains_perm (hs.map Prod.fst) _
    · exact (hsrc.dedup).length_eq
    · rw [isEmpty_perm hsrc]
    · rw [hp.length_eq, hs.length_eq]
    · rw [isEmpty_perm hp, isEmpty_perm hs]
  rw [hinputs]

/-- Write-key disjointness is symmetric. -/
theorem WDisj_symm (qi : String) {r1 r2 : ToolResult} (h : WDisj qi r1 r2) :
    WDisj qi r2 r1 :=
  ⟨fun _ ha hb => h.1 hb ha, fun _ ha hb => h.2 hb ha⟩

/-- Primary partition of the merge as a concatenation of per-result blocks,
under pairwise key disjointness. -/
theorem merge_primary_blocks (qi : String) (L : List ToolResult)
    (hL : L.Pairwise (WDisj qi)) :
    (_merge_tool_data L qi).primary_data =
      (((L.filter (·.success)).map fun r => kvsOf true (writesOf r qi)).map (foldD [])).flatten := by
  have h1 : (_merge_tool_data L qi).primary_data =
      foldD [] ((L.filter (·.success)).flatMap fun r => kvsOf true (writesOf r qi)) := by
    simpa [_merge_tool_data] using foldl_mergeStep_fst qi L ([], [], [])
  rw [h1]
  rw [show ((L.filter (·.success)).flatMap fun r => kvsOf true (writesOf r qi)) =
      ((L.filter (·.success)).map fun r => kvsOf true (writesOf r qi)).flatten from rfl]
  apply foldD_flatten_blocks
  rw [List.pairwise_map]
  exact (hL.filter _).imp fun h => h.1

/-- Supplementary partition of the merge as a concatenation of per-result
blocks, under pairwise key disjointness. -/
theorem merge_supplementary_blocks (qi : String) (L : List ToolResult)
    (hL : L.Pairwise (WDisj qi)) :
    (_merge_tool_data L qi).supplementary_data =
      (((L.filter (·.success)).map fun r => kvsOf false (writesOf r qi)).map (foldD [])).flatten := by
  have h1 : (_merge_tool_data L qi).supplementary_data =
      foldD [] ((L.filter (·.success)).flatMap fun r => kvsOf false (writesOf r qi)) := by
    simpa [_merge_tool_data] using foldl_mergeStep_snd qi L ([], [], [])
  rw [h1]
  rw [show ((L.filter (·.success)).flatMap fun r => kvsOf false (writesOf r qi)) =
      ((L.filter (·.success)).map fun r => kvsOf false (writesOf r qi)).flatten from rfl]
  apply foldD_flatten_blocks
  rw [List.pairwise_map]
  exact (hL.filter _).imp fun h => h.2

/-- C3 amended: when distinct results write pairwise-disjoint record keys,
any permutation of the successful tool results yields primary and
supplementary partitions that are permutations of each other (equal as
Python dicts), a permuted sources list, and exactly the same completeness
score; the insertion order of the records, and with it the first-market
canonical selection, is not preserved. -/
theorem merge_tool_data_perm (rs rsP : List ToolResult) (qi : String)
    (hperm : rs.Perm rsP) (hdisj : rs.Pairwise (WDisj qi)) :
    (_merge_tool_data rs qi).primary_data.Perm (_merge_tool_data rsP qi).primary_data ∧
    (_merge_tool_data rs qi).supplementary_data.Perm
      (_merge_tool_data rsP qi).supplementary_data ∧
    (_merge_tool_data rs qi).sources_used.Perm (_merge_tool_data rsP qi).sources_used ∧
    (_merge_tool_data rs qi).completeness_score =
      (_merge_tool_data rsP qi).completeness_score := by
  have hdisjP : rsP.Pairwise (WDisj qi) :=
    (hperm.pairwise_iff fun {a b} hab => WDisj_symm qi hab).mp hdisj
  have hfilter : (rs.filter (·.success)).Perm (rsP.filter (·.success)) := hperm.filter _
  have hp : (_merge_tool_data rs qi).primary_data.Perm
      (_merge_tool_data rsP qi).primary_data := by
    rw [merge_primary_blocks qi rs hdisj, merge_primary_blocks qi rsP hdisjP]
    exact perm_flatten ((hfilter.map _).map _)
  have hs : (_merge_tool_data rs qi).supplementary_data.Perm
      (_merge_tool_data rsP qi).supplementary_data := by
    rw [merge_supplementary_blocks qi rs hdisj, merge_supplementary_blocks qi rsP hdisjP]
    exact perm_flatten ((hfilter.map _).map _)
  have hsrcs : (_merge_tool_data rs qi).sources_used.Perm
      (_merge_tool_data rsP qi).sources_used := by
    have e1 : (_merge_tool_data rs qi).sources_used = (rs.filter (·.success)).map srcOf := by
      simpa [_merge_tool_data] using foldl_mergeStep_sources qi rs ([], [], [])
    have e2 : (_merge_tool_data rsP qi).sources_used = (rsP.filter (·.success)).map srcOf := by
      simpa [_merge_tool_data] using foldl_mergeStep_sources qi rsP ([], [], [])
    rw [e1, e2]
    exact hfilter.map _
  refine ⟨hp, hs, hsrcs, ?_⟩
  have e1 : (_merge_tool_data rs qi).completeness_score =
      _calculate_completeness_score (_merge_tool_data rs qi).primary_data
        (_merge_tool_data rs qi).supplementary_data
        (_merge_tool_data rs qi).sources_used qi := rfl
  have e2 : (_merge_tool_data rsP qi).completeness_score =
      _calculate_completeness_score (_merge_tool_data rsP qi).primary_data
        (_merge_tool_data rsP qi).supplementary_data
        (_merge_tool_data rsP qi).sources_used qi := rfl
  rw [e1, e2]
  exact score_perm _ _ _ _ _ _ qi hp hs hsrcs

/-- C3 counterexample: two successful market results for different symbols
are a permutation of each other with disjoint record keys, yet swapping them
changes the canonical market selection, so merge is not permutation
invariant as claimed. -/
theorem merge_canonical_order_dependent :
    ([cmcResult "ETH" 200, cmcResult "BTC" 100]).Perm
      [cmcResult "BTC" 100, cmcResult "ETH" 200] ∧
    canonicalMarketSymbol
      (_merge_tool_data [cmcResult "BTC" 100, cmcResult "ETH" 200] "market_data")
      = some "BTC" ∧
    canonicalMarketSymbol
      (_merge_tool_data [cmcResult "ETH" 200, cmcResult "BTC" 100] "market_data")
      = some "ETH" :=
  ⟨List.Perm.swap (cmcResult "BTC" 100) (cmcResult "ETH" 200) [], rfl, rfl⟩

/-- C3 witness: the amended theorem applied to the two concrete market
results, giving equal completeness scores under the swap. -/
theorem merge_tool_data_perm_witness :
    ([cmcResult "BTC" 100, cmcResult "ETH" 200]).Perm
      [cmcResult "ETH" 200, cmcResult "BTC" 100] ∧
    (_merge_tool_data [cmcResult "BTC" 100, cmcResult "ETH" 200] "market_data").primary_data.Perm
      (_merge_tool_data [cmcResult "ETH" 200, cmcResult "BTC" 100] "market_data").primary_data ∧
    (_merge_tool_data [cmcResult "BTC" 100, cmcResult "ETH" 200] "market_data").completeness_score =
      (_merge_tool_data [cmcResult "ETH" 200, cmcResult "BTC" 100] "market_data").completeness_score := by
  have hdisj :
      ([cmcResult "BTC" 100, cmcResult "ETH" 200]).Pairwise (WDisj "market_data") := by
    refine List.Pairwise.cons ?_ (List.pairwise_singleton _ _)
    intro r hr
    rw [List.mem_singleton] at hr
    subst hr
    constructor
    · intro a ha hb
      rw [show wkeys true (cmcResult "BTC" 100) "market_data" = ["market_BTC"] from rfl] at ha
      rw [show wkeys true (cmcResult "ETH" 200) "market_data" = ["market_ETH"] from rfl] at hb
      rw [List.mem_singleton] at ha hb
      rw [ha] at hb
      exact absurd hb (by decide)
    · intro a ha hb
      rw [show wkeys false (cmcResult "BTC" 100) "market_data" = [] from rfl] at ha
      exact absurd ha (List.not_mem_nil a)
  have h := merge_tool_data_perm [cmcResult "BTC" 100, cmcResult "ETH" 200]
    [cmcResult "ETH" 200, cmcResult "BTC" 100] "market_data"
    (List.Perm.swap (cmcResult "ETH" 200) (cmcResult "BTC" 100) []) hdisj
  exact ⟨List.Perm.swap (cmcResult "ETH" 200) (cmcResult "BTC" 100) [], h.1, h.2.2.2⟩

/-- C8 witness: adding a market record under a fresh key to the empty
dataset does not lower the score. -/
theorem completeness_score_monotone_witness :
    "market_BTC" ∉ dkeys [] ∧
    _calculate_completeness_score [] [] ["coinmarketcap"] "general" ≤
      _calculate_completeness_score
        (dinsert "market_BTC" (.obj [("type", .str "market_data")]) []) []
        ["coinmarketcap"] "general" :=
  ⟨by decide,
   (completeness_score_monotone [] [] ["coinmarketcap"] "general" "market_BTC"
      (.obj [("type", .str "market_data")])).1 (by decide)⟩

end Airaa
